import Mathlib

/-!
Verification development for the binnf serialisation protocol
(`resource/backend/pynn/binnf.py`) and the pid-block validation logic of the
PyNN wrapper (`resource/backend/pynn/cypress.py`) of the cypress repository.

The byte stream is modelled as a `List Nat` of bytes together with a cursor
position; a Python file object from which the codec reads is a seekable
stream (as in the repository's tests, which read from `StringIO`), so
`_tell` always succeeds and returns the cursor position.  Exceptions
(`BinnfException`, `struct.error`, numpy `ValueError`, `CypressException`)
are modelled with `Except String`; the message strings of `BinnfException`
and `CypressException` are taken verbatim from the source.
-/

/-- Serialisation state: the whole underlying byte sequence plus the cursor.
`fd.read(n)` returns the next `min n` available bytes and advances the
cursor; `fd.tell()` returns the cursor. -/
structure RS where
  data : List Nat
  pos : Nat
deriving DecidableEq

/-- Sequencing of fallible reads: Python exception propagation. -/
def ebind {α β : Type} (m : Except String (α × RS))
    (f : α → RS → Except String (β × RS)) : Except String (β × RS) :=
  match m with
  | .error e => .error e
  | .ok (a, s) => f a s

@[simp] theorem ebind_ok {α β : Type} (a : α) (s : RS)
    (f : α → RS → Except String (β × RS)) : ebind (.ok (a, s)) f = f a s := rfl

@[simp] theorem ebind_error {α β : Type} (e : String)
    (f : α → RS → Except String (β × RS)) :
    ebind (α := α) (.error e) f = .error e := rfl

-- Numbers and constants defining the serialisation format (binnf.py lines 35-48)

def BLOCK_START_SEQUENCE : Nat := 0x665a8cda
def BLOCK_END_SEQUENCE : Nat := 0x420062cb
def BLOCK_TYPE_MATRIX : Int := 0x01
def BLOCK_TYPE_LOG : Int := 0x02

def TYPE_INT8 : Int := 0
def TYPE_UINT8 : Int := 1
def TYPE_INT16 : Int := 2
def TYPE_UINT16 : Int := 3
def TYPE_INT32 : Int := 4
def TYPE_UINT32 : Int := 5
def TYPE_FLOAT32 : Int := 6
def TYPE_INT64 : Int := 7
def TYPE_FLOAT64 : Int := 8

/-- Membership in `TYPE_MAP`: the nine scalar type codes. -/
def typeKnown (t : Int) : Prop := 0 ≤ t ∧ t ≤ 8

instance (t : Int) : Decidable (typeKnown t) := by
  unfold typeKnown; infer_instance

/-- Byte width of each scalar kind (numpy itemsize of the dtype named by
`TYPE_MAP`); `0` stands for "no such entry" and is never reached when
`typeKnown` holds. -/
def typeSize (t : Int) : Nat :=
  if t = 0 ∨ t = 1 then 1
  else if t = 2 ∨ t = 3 then 2
  else if t = 4 ∨ t = 5 ∨ t = 6 then 4
  else if t = 7 ∨ t = 8 then 8
  else 0

/-- One header entry: a column name (a Python byte string) and a scalar type
code, as produced by `dtype_to_header` (entries ordered by byte offset,
which is the declared column order). -/
structure Column where
  name : List Nat
  type : Int
deriving DecidableEq

/-- Row byte width: the numpy `itemsize` of `header_to_dtype(header)`
(packed record layout, cumulative column widths, no padding). -/
def rowWidth (header : List Column) : Nat :=
  (header.map (fun c => typeSize c.type)).sum

/-- Conditions under which `np.dtype` accepts the header built by
`header_to_dtype`: every type code is a `TYPE_MAP` key (otherwise the map
lookup raises `KeyError`) and field names are distinct (otherwise `np.dtype`
raises `ValueError`). -/
def dtypeOk (header : List Column) : Prop :=
  (header.map Column.name).Nodup ∧ ∀ c ∈ header, typeKnown c.type

instance (header : List Column) : Decidable (dtypeOk header) := by
  unfold dtypeOk; infer_instance

/-- A numpy structured array as handed to `serialise_matrix`: the dtype
header, the shape (`shape2 = none` for a one-dimensional array of records,
`some c` for a two-dimensional `(rows, c)` array), and the raw C-contiguous
bytes produced by `tobytes()`. -/
structure NpMatrix where
  header : List Column
  shape2 : Option Nat
  rows : Nat
  data : List Nat
deriving DecidableEq

/-- numpy `matrix.size`: the product of the shape entries. -/
def npSize (m : NpMatrix) : Nat :=
  match m.shape2 with
  | none => m.rows
  | some c => m.rows * c

-- Helper functions used to determine the length of a storage block

def BLOCK_TYPE_LEN : Nat := 4
def SIZE_LEN : Nat := 4
def TYPE_LEN : Nat := 4

/-- Serialised length of a string in bytes (`_str_len`). -/
def strLen (s : List Nat) : Nat := SIZE_LEN + s.length

/-- Serialised length of the header structure in bytes (`_header_len`). -/
def headerLen (header : List Column) : Nat :=
  SIZE_LEN + (header.map (fun c => strLen c.name + TYPE_LEN)).sum

/-- Serialised length of a matrix in bytes (`_matrix_len`):
`SIZE_LEN + matrix.size * matrix.dtype.itemsize`. -/
def matrixLen (m : NpMatrix) : Nat := SIZE_LEN + npSize m * rowWidth m.header

/-- Total length of a binnf matrix block in bytes (`_matrix_block_len`). -/
def matrixBlockLen (name : List Nat) (m : NpMatrix) : Nat :=
  BLOCK_TYPE_LEN + strLen name + headerLen m.header + matrixLen m

/-- Total length of a binnf log block in bytes (`_log_block_len`). -/
def logBlockLen (module msg : List Nat) : Nat :=
  BLOCK_TYPE_LEN + 12 + strLen module + strLen msg

-- Serialisation helper functions

/-- Little-endian bytes of a natural number, 4 bytes. -/
def le4 (u : Nat) : List Nat :=
  [u % 256, u / 256 % 256, u / 65536 % 256, u / 16777216 % 256]

/-- Bytes written by `struct.pack("i", v)`: the two's complement 32-bit
little-endian encoding. -/
def encodeI32 (v : Int) : List Nat := le4 ((v % 4294967296).toNat)

/-- Value returned by `struct.unpack("i", data)[0]` for a 4-byte string. -/
def decodeI32 (bs : List Nat) : Int :=
  let u : Nat := bs.getD 0 0 + 256 * bs.getD 1 0 + 65536 * bs.getD 2 0 +
    16777216 * bs.getD 3 0
  if 2147483648 ≤ u then (u : Int) - 4294967296 else (u : Int)

/-- Bytes written by `_write_str`: length prefix, then the raw bytes. -/
def writeStr (s : List Nat) : List Nat := encodeI32 s.length ++ s

/-- Bytes written for one header column inside `serialise_matrix`. -/
def columnBytes (c : Column) : List Nat := writeStr c.name ++ encodeI32 c.type

/-- Bytes written for the data header inside `serialise_matrix`: the column
count followed by each column's name and type. -/
def headerBytes (header : List Column) : List Nat :=
  encodeI32 header.length ++ header.flatMap columnBytes

/-- Number of data columns computed by `serialise_matrix` (lines 224-228):
`len(matrix.dtype.descr)` for a one-dimensional structured array — one
entry per field, i.e. `len(header)` — and `matrix.shape[1]` otherwise. -/
def npCols (m : NpMatrix) : Nat :=
  match m.shape2 with
  | none => m.header.length
  | some c => c

/-- The `serialise_matrix` function.  Returns the bytes that were written to
the stream and, when the column-count check fails, the raised
`BinnfException` (the bytes written before the raise remain on the
stream). -/
def serialiseMatrix (name : List Nat) (m : NpMatrix) : List Nat × Option String :=
  let header := m.header
  let pre : List Nat :=
    encodeI32 (BLOCK_START_SEQUENCE : Int) ++
    encodeI32 (matrixBlockLen name m : Int) ++
    encodeI32 BLOCK_TYPE_MATRIX ++
    writeStr name ++
    headerBytes header
  if npCols m ≠ header.length then
    (pre, some "Disecrepancy between matrix number of columns and header")
  else
    (pre ++ encodeI32 (m.rows : Int) ++ m.data ++
      encodeI32 (BLOCK_END_SEQUENCE : Int), none)

/-- The `serialise_log` function.  The timestamp is carried as its 8-byte
IEEE-754 bit pattern (`struct.pack("d", time)`); the codec never computes
with the value, it only copies the bytes. -/
def serialiseLog (timeBytes : List Nat) (severity : Int) (module msg : List Nat) :
    List Nat :=
  encodeI32 (BLOCK_START_SEQUENCE : Int) ++
  encodeI32 (logBlockLen module msg : Int) ++
  encodeI32 BLOCK_TYPE_LOG ++
  timeBytes ++
  encodeI32 severity ++
  writeStr module ++
  writeStr msg ++
  encodeI32 (BLOCK_END_SEQUENCE : Int)

-- Deserialisation helper functions

/-- One `fd.read(n)` call: returns up to `n` bytes (all remaining bytes when
`n` is negative, as for Python file objects) and advances the cursor by the
number of bytes actually returned. -/
def fdRead (n : Int) (s : RS) : List Nat × RS :=
  let avail := s.data.drop s.pos
  let taken := if n < 0 then avail else avail.take n.toNat
  (taken, ⟨s.data, s.pos + taken.length⟩)

/-- The `_read_int` helper: reads 4 bytes; an empty read raises
`BinnfException("Unexpected end of file")`; a short (1-3 byte) read makes
`struct.unpack` raise `struct.error`. -/
def readInt (s : RS) : Except String (Int × RS) :=
  let (data, s1) := fdRead 4 s
  if data.isEmpty then .error "Unexpected end of file"
  else if data.length ≠ 4 then .error "struct.error"
  else .ok (decodeI32 data, s1)

/-- The `_read_double` helper: reads 8 bytes and returns the raw IEEE-754
bit pattern (the codec never computes with the value). -/
def readDouble (s : RS) : Except String (List Nat × RS) :=
  let (data, s1) := fdRead 8 s
  if data.isEmpty then .error "Unexpected end of file"
  else if data.length ≠ 8 then .error "struct.error"
  else .ok (data, s1)

/-- The `_read_str` helper: reads a length prefix, then that many bytes.  A
zero-byte result — also for a declared length of zero — is reported as
`BinnfException("Unexpected end of file")`.  A short read is NOT detected:
whatever bytes were available are returned. -/
def readStr (s : RS) : Except String (List Nat × RS) :=
  ebind (readInt s) fun n s1 =>
    let (data, s2) := fdRead n s1
    if data.isEmpty then .error "Unexpected end of file"
    else .ok (data, s2)

/-- The `_tell` helper for a seekable stream, where `fd.tell()` succeeds:
the cursor position. -/
def tellFn (s : RS) : Nat := s.pos

/-- The `_tell` helper in general: `fd.tell()` for a seekable stream, and
`-1` when the stream is not seekable (a pipe or standard input), where
`fd.tell()` raises and the `except` branch returns `-1`. -/
def tellG (seekable : Bool) (s : RS) : Int :=
  if seekable then (s.pos : Int) else -1

/-- The scan loop of `_synchronise`, operating on the bytes after the
cursor.  Returns whether the marker was found together with the number of
bytes consumed; reaching end of input after at least one byte was read
raises `BinnfException("Unexpected end of file")`. -/
def syncLoop (marker : Nat) : List Nat → Nat → Bool → Except String (Bool × Nat)
  | [], _, true => .ok (false, 0)
  | [], _, false => .error "Unexpected end of file"
  | c :: rest, sync, _ =>
    let sync1 := (sync >>> 8) ||| (c <<< 24)
    if sync1 = marker then .ok (true, 1)
    else
      match syncLoop marker rest sync1 false with
      | .ok (b, n) => .ok (b, n + 1)
      | .error e => .error e

/-- The `_synchronise` function: scan for `marker`, returning `false` only
when end of input is reached before the first byte is read. -/
def synchronise (marker : Nat) (s : RS) : Except String (Bool × RS) :=
  match syncLoop marker (s.data.drop s.pos) 0 true with
  | .error e => .error e
  | .ok (b, n) => .ok (b, ⟨s.data, s.pos + n⟩)

/-- A decoded block: `deserialise_matrix` returns the name, the header read
from the stream, and the numpy record array reconstructed by
`np.frombuffer` (its row count and its raw bytes); `deserialise_log`
returns the timestamp bit pattern, the severity, the module and the
message. -/
inductive Content where
  | mat (name : List Nat) (header : List Column) (rows : Nat) (data : List Nat)
  | log (time : List Nat) (severity : Int) (module : List Nat) (msg : List Nat)
deriving DecidableEq

/-- The header-reading loop of `deserialise_matrix` (lines 272-276): read
`n` pairs of (name string, type int). -/
def readHeaderN : Nat → RS → Except String (List Column × RS)
  | 0, s => .ok ([], s)
  | n + 1, s =>
    ebind (readStr s) fun nm s1 =>
    ebind (readInt s1) fun ty s2 =>
    ebind (readHeaderN n s2) fun rest s3 =>
    .ok (⟨nm, ty⟩ :: rest, s3)

/-- The `deserialise_matrix` function.  `header_to_dtype` raises when a type
code is not a `TYPE_MAP` key or the field names collide; `np.frombuffer`
raises when the dtype itemsize is zero or the bytes that `fd.read`
actually returned are not a whole number of records — otherwise the
resulting array has `len(bytes) / itemsize` records. -/
def deserialiseMatrixFn (s : RS) : Except String (Content × RS) :=
  ebind (readStr s) fun name s1 =>
  ebind (readInt s1) fun headerCount s2 =>
  ebind (readHeaderN headerCount.toNat s2) fun header s3 =>
  ebind (readInt s3) fun rows s4 =>
  if ¬ dtypeOk header then .error "header_to_dtype failed"
  else
    let isz := rowWidth header
    let (data, s5) := fdRead (rows * (isz : Int)) s4
    if isz = 0 then .error "ValueError: itemsize cannot be zero"
    else if data.length % isz ≠ 0 then
      .error "ValueError: buffer size must be a multiple of element size"
    else .ok (.mat name header (data.length / isz) data, s5)

/-- The `deserialise_log` function. -/
def deserialiseLogFn (s : RS) : Except String (Content × RS) :=
  ebind (readDouble s) fun time s1 =>
  ebind (readInt s1) fun severity s2 =>
  ebind (readStr s2) fun module s3 =>
  ebind (readStr s3) fun msg s4 =>
  .ok (.log time severity module msg, s4)

/-- Dispatch on the block type tag (deserialise lines 313-319). -/
def readBlockContent (blockType : Int) (s : RS) : Except String (Content × RS) :=
  if blockType = BLOCK_TYPE_MATRIX then deserialiseMatrixFn s
  else if blockType = BLOCK_TYPE_LOG then deserialiseLogFn s
  else .error "Unexpected block type"

/-- The `deserialise` function on a seekable stream: synchronise on the
start marker (clean end of stream yields `(None, None)`, modelled as
`none`), read the declared length and the type tag, decode the block
content, check the declared length against the bytes actually consumed,
and check the end marker.  This is the `seekable = true` instance of
`deserialiseTell` below (proved as `deserialiseTell_true_eq`), with the
always-true `pos0 >= 0 and pos1 >= 0` guard folded away. -/
def deserialiseFn (s : RS) : Except String (Option (Int × Content) × RS) :=
  match synchronise BLOCK_START_SEQUENCE s with
  | .error e => .error e
  | .ok (false, s1) => .ok (none, s1)
  | .ok (true, s1) =>
    ebind (readInt s1) fun blockLen s2 =>
    let pos0 := tellFn s2
    ebind (readInt s2) fun blockType s3 =>
    ebind (readBlockContent blockType s3) fun res s4 =>
    let pos1 := tellFn s4
    if ((pos1 - pos0 : Nat) : Int) ≠ blockLen then .error "Invalid block length"
    else
      ebind (readInt s4) fun blockEnd s5 =>
      if blockEnd ≠ ((BLOCK_END_SEQUENCE : Nat) : Int) then
        .error "Block end sequence not found"
      else .ok (some (blockType, res), s5)

/-- The `deserialise` function over a stream that may or may not be
seekable: as `deserialiseFn`, but `_tell` returns `-1` on a non-seekable
stream, and the `pos0 >= 0 and pos1 >= 0` guard of the length check
(binnf.py line 323) is modelled explicitly — on a non-seekable stream the
declared-length check is skipped. -/
def deserialiseTell (seekable : Bool) (s : RS) :
    Except String (Option (Int × Content) × RS) :=
  match synchronise BLOCK_START_SEQUENCE s with
  | .error e => .error e
  | .ok (false, s1) => .ok (none, s1)
  | .ok (true, s1) =>
    ebind (readInt s1) fun blockLen s2 =>
    let pos0 := tellG seekable s2
    ebind (readInt s2) fun blockType s3 =>
    ebind (readBlockContent blockType s3) fun res s4 =>
    let pos1 := tellG seekable s4
    if 0 ≤ pos0 ∧ 0 ≤ pos1 ∧ pos1 - pos0 ≠ blockLen then
      .error "Invalid block length"
    else
      ebind (readInt s4) fun blockEnd s5 =>
      if blockEnd ≠ ((BLOCK_END_SEQUENCE : Nat) : Int) then
        .error "Block end sequence not found"
      else .ok (some (blockType, res), s5)

-- ---------------------------------------------------------------------------
-- The network assembler (`read_network`, binnf.py lines 334-414).
-- It consumes the sequence of already-decoded matrix blocks; block names are
-- the Python string literals the dispatch compares against.
-- ---------------------------------------------------------------------------

/-- A decoded one-dimensional numpy record array as seen by the assembler:
its field names (`matrix.dtype.fields`, in declared order) and its rows,
one list of field values per record (numeric values are carried as `Int`;
the assembler never computes with them). -/
structure AMatrix where
  cols : List String
  rows : List (List Int)
deriving DecidableEq

/-- Field access `matrix[i][name]`. -/
def aGet (m : AMatrix) (i : Nat) (f : String) : Int :=
  (m.rows.getD i []).getD (m.cols.indexOf f) 0

/-- The `EXPECTED_FIELDS` table of `read_network`. -/
def EXPECTED_FIELDS : List (String × List String) :=
  [("populations", ["count", "type"]),
   ("parameters", ["pid", "nid"]),
   ("target", ["pid", "nid"]),
   ("spike_times", ["times"]),
   ("list_connection", ["nid_src", "nid_tar", "weight", "delay"]),
   ("list_connection_header", ["pid_src", "pid_tar", "inh", "file"]),
   ("group_connections",
    ["pid_src", "nid_src_start", "nid_src_end", "pid_tar", "nid_tar_start",
     "nid_tar_end", "connector_id", "weight", "delay", "parameter"])]

/-- The field check loop of `validate_matrix`: raise on the first mandatory
field missing from the matrix dtype.  The raised message interpolates the
BLOCK name (the Python variable `name`), not the missing field. -/
def checkFields (name : String) (cols : List String) :
    List String → Except String Unit
  | [] => .ok ()
  | f :: rest =>
    if f ∈ cols then checkFields name cols rest
    else .error ("Expected mandatory header field \"" ++ name ++ "\"")

/-- The `validate_matrix` function: blocks whose name has an
`EXPECTED_FIELDS` entry must carry all mandatory fields. -/
def validateMatrix (name : String) (m : AMatrix) : Except String Unit :=
  match (EXPECTED_FIELDS.find? (fun p => p.1 = name)) with
  | none => .ok ()
  | some p => checkFields name m.cols p.2

/-- An entry of the assembled `network["spike_times"]` list. -/
structure SpikeEntry where
  pid : Int
  nid : Int
  times : AMatrix
deriving DecidableEq

/-- The network descriptor under construction.  The Python dict starts with
the keys `parameters`, `spike_times`, `signals`, `list_connections`; the
singleton keys are absent until their block arrives (`Option`). -/
structure Network where
  parameters : List AMatrix
  spike_times : List SpikeEntry
  signals : List AMatrix
  list_connections : List AMatrix
  populations : Option AMatrix
  list_connection_header : Option AMatrix
  group_connections : Option AMatrix
deriving DecidableEq

/-- The initial descriptor of `read_network` (line 359). -/
def network0 : Network := ⟨[], [], [], [], none, none, none⟩

/-- The body of the `read_network` loop for one decoded matrix block, acting
on the descriptor and the pending `target` state. -/
def readNetworkStep (net : Network) (target : Option (Int × Int))
    (name : String) (m : AMatrix) :
    Except String (Network × Option (Int × Int)) :=
  match validateMatrix name m with
  | .error e => .error e
  | .ok () =>
    if name = "populations" then
      if net.populations.isSome then
        .error "Only a single \"populations\" instance is supported"
      else .ok ({ net with populations := some m }, target)
    else if name = "list_connection_header" then
      if net.list_connection_header.isSome then
        .error "Only a single \"list_connection_header\" instance is supported"
      else .ok ({ net with list_connection_header := some m }, target)
    else if name = "list_connection" then
      .ok ({ net with list_connections := net.list_connections ++ [m] }, target)
    else if name = "group_connections" then
      if net.group_connections.isSome then
        .error "Only a single \"group_connections\" instance is supported"
      else .ok ({ net with group_connections := some m }, target)
    else if name = "parameters" then
      .ok ({ net with parameters := net.parameters ++ [m] }, target)
    else if name = "signals" then
      .ok ({ net with signals := net.signals ++ [m] }, target)
    else if name = "target" then
      if m.rows.length ≠ 1 then
        .error "Target matrix must have exactly one element"
      else .ok (net, some (aGet m 0 "pid", aGet m 0 "nid"))
    else if name = "spike_times" then
      match target with
      | none => .error "Target neuron was not set"
      | some (p, n) =>
        .ok ({ net with spike_times := net.spike_times ++ [⟨p, n, m⟩] }, none)
    else .error ("Unsupported matrix type \"" ++ name ++ "\"")

/-- The `read_network` loop folded over a finite sequence of decoded matrix
blocks; the loop ends at clean end of stream and returns the descriptor
(the pending target, if any, is dropped). -/
def readNetworkGo (net : Network) (target : Option (Int × Int)) :
    List (String × AMatrix) → Except String Network
  | [] => .ok net
  | (name, m) :: rest =>
    match readNetworkStep net target name m with
    | .error e => .error e
    | .ok (net1, target1) => readNetworkGo net1 target1 rest

/-- The `read_network` function on a decoded block sequence. -/
def readNetworkBlocks (blocks : List (String × AMatrix)) : Except String Network :=
  readNetworkGo network0 none blocks

-- ---------------------------------------------------------------------------
-- pid-block validation (`cypress.py`): `_iterate_blocks` (lines 73-83) and
-- `iterate_pid_blocks_callback` (lines 552-589).
-- ---------------------------------------------------------------------------

/-- The `ALL_NEURONS` sentinel (cypress.py line 550). -/
def ALL_NEURONS : Int := 0x7FFFFFFF

/-- A `(pid, nid)` row of a `parameters`/`spike_times` sequence. -/
structure PRow where
  pid : Int
  nid : Int
deriving DecidableEq, Inhabited

/-- The body of the `_iterate_blocks` loop for one index `i`, threading the
`(begin, begin_elem)` state; `elem` is `None` (here `none`) once `i` passes
the end of the list. -/
def iterStep (lst : List PRow) (cb : Int → Nat → Nat → Except String Unit)
    (st : Nat × Option Int) (i : Nat) : Except String (Nat × Option Int) :=
  let count := lst.length
  let elem : Option Int := if i < count then some (lst.getD i default).pid else none
  if i = count ∨ elem ≠ st.2 then
    match st.2 with
    | some be =>
      match cb be st.1 i with
      | .error e => .error e
      | .ok () => .ok (i, elem)
    | none => .ok (i, elem)
  else .ok st

/-- The `for i in xrange(count + 1)` loop of `_iterate_blocks`. -/
def iterLoop (lst : List PRow) (cb : Int → Nat → Nat → Except String Unit) :
    List Nat → Nat × Option Int → Except String Unit
  | [], _ => .ok ()
  | i :: is, st =>
    match iterStep lst cb st i with
    | .error e => .error e
    | .ok st1 => iterLoop lst cb is st1

/-- The `_iterate_blocks` static method, specialised (as in
`iterate_pid_blocks`) to `eqn_fun = lambda x: x["pid"]`. -/
def iterateBlocks (lst : List PRow) (cb : Int → Nat → Nat → Except String Unit) :
    Except String Unit :=
  iterLoop lst cb (List.range (lst.length + 1)) (0, none)

/-- The `for j in xrange(count)` loop of `iterate_pid_blocks_callback`:
`lst[begin + j]["nid"] != j` raises. -/
def nidSeqCheck (lst : List PRow) (begin : Nat) : Nat → Nat → Except String Unit
  | _, 0 => .ok ()
  | j, n + 1 =>
    if (lst.getD (begin + j) default).nid ≠ (j : Int) then
      .error "Neuron indices must start at zero and be sorted."
    else nidSeqCheck lst begin (j + 1) n

/-- The size lookup `populations[pid]["obj"].size` at the head of
`iterate_pid_blocks_callback`, with Python list-indexing semantics: a
negative `pid` indexes from the end of the list, and a `pid` outside
`[-len, len)` raises an (uncaught) `IndexError`. -/
def populationSize (sizes : List Nat) (pid : Int) : Except String Nat :=
  if 0 ≤ pid ∧ pid < (sizes.length : Int) then
    .ok (sizes.getD pid.toNat 0)
  else if -(sizes.length : Int) ≤ pid ∧ pid < 0 then
    .ok (sizes.getD (pid + (sizes.length : Int)).toNat 0)
  else .error "IndexError: list index out of range"

/-- The `iterate_pid_blocks_callback` function (the trailing `fun` callback,
which sets backend parameters, is out of scope and modelled as succeeding):
the referenced population is looked up first — `pop = populations[pid]["obj"]`
with Python indexing, so a bad pid raises `IndexError` before any check —
then the run is accepted when it has exactly `pop.size` rows with `nid`
equal to the row offset, or is a single `ALL_NEURONS` row. -/
def pidBlockCallback (sizes : List Nat) (lst : List PRow) (pid : Int)
    (begin finish : Nat) : Except String Unit :=
  match populationSize sizes pid with
  | .error e => .error e
  | .ok size =>
  let count := finish - begin
  let nid0 := (lst.getD begin default).nid
  if count ≠ size ∧ (count ≠ 1 ∨ nid0 ≠ ALL_NEURONS) then
    .error "Parameter count for one population must equal the number of neurons in the population"
  else if nid0 = ALL_NEURONS then
    if count ≠ 1 then
      .error "Only one parameter set may be given per population if all neuron parameters should be set."
    else .ok ()
  else nidSeqCheck lst begin 0 count

/-- The `iterate_pid_blocks` helper: `_iterate_blocks` over the pid runs of
`lst` with `iterate_pid_blocks_callback` as the callback, `sizes` being the
neuron counts of the populations built so far. -/
def iteratePidBlocks (sizes : List Nat) (lst : List PRow) : Except String Unit :=
  iterateBlocks lst (pidBlockCallback sizes lst)

deriving instance DecidableEq for Except

/-- Well-formedness of a header as it occurs in a serialisable numpy dtype:
nonempty field names of representable length and known scalar kinds. -/
def headerWf (header : List Column) : Prop :=
  ∀ c ∈ header, c.name ≠ [] ∧ c.name.length < 2147483648 ∧ typeKnown c.type

instance (header : List Column) : Decidable (headerWf header) := by
  unfold headerWf; infer_instance

/-- The bytes of a matrix block between the block type tag and the end
marker: exactly what `deserialise_matrix` consumes. -/
def matrixBodyBytes (name : List Nat) (m : NpMatrix) : List Nat :=
  writeStr name ++ headerBytes m.header ++ encodeI32 (m.rows : Int) ++ m.data

/-- One update of the rolling 32-bit window maintained by `_synchronise`:
`sync = (sync >> 8) | (ord(c) << 24)`. -/
def windowStep (sync c : Nat) : Nat := (sync >>> 8) ||| (c <<< 24)

/-- The window value after scanning the bytes `bs` from window `w`. -/
def windowVal (w : Nat) (bs : List Nat) : Nat := bs.foldl windowStep w

/-- Whether a list of scanned bytes never completes the marker: no nonempty
prefix of `bs` drives the rolling window (started at `w`) to `marker`. -/
def neverHitsMarker (marker w : Nat) (bs : List Nat) : Prop :=
  ∀ i, 1 ≤ i → i ≤ bs.length → windowVal w (bs.take i) ≠ marker

/-- Nid values strictly increase along a run (pairwise comparison of
consecutive rows). -/
def nidsStrictIncr : List PRow → Bool
  | [] => true
  | [_] => true
  | a :: b :: t => decide (a.nid < b.nid) && nidsStrictIncr (b :: t)

/-- Acceptance of one pid run exactly as the claim words it: either the run
has exactly the population's neuron count of rows with strictly increasing
nid starting at 0, or it is a single row with `nid = ALL_NEURONS`.  This
definition follows the claim, not the source; the source is
`pidBlockCallback`. -/
def claimRunAccepted (size : Nat) (run : List PRow) : Bool :=
  (decide (run.length = size) && nidsStrictIncr run &&
    decide ((run.headD default).nid = 0)) ||
  (decide (run.length = 1) && decide ((run.headD default).nid = ALL_NEURONS))


-- ---------------------------------------------------------------------------
-- Arithmetic facts about the 32-bit integer codec
-- ---------------------------------------------------------------------------

theorem encodeI32_length (v : Int) : (encodeI32 v).length = 4 := rfl

theorem decodeI32_encodeI32 (v : Int) (h0 : 0 ≤ v) (h1 : v < 2147483648) :
    decodeI32 (encodeI32 v) = v := by
  unfold encodeI32 decodeI32 le4
  have hmod : v % 4294967296 = v := by omega
  rw [hmod]
  have ht : (v.toNat : Int) = v := Int.toNat_of_nonneg h0
  have ht2 : v.toNat < 2147483648 := by omega
  simp only [List.getD_cons_zero, List.getD_cons_succ]
  have hu : v.toNat % 256 + 256 * (v.toNat / 256 % 256) +
      65536 * (v.toNat / 65536 % 256) + 16777216 * (v.toNat / 16777216 % 256) =
      v.toNat := by omega
  rw [hu, if_neg (by omega)]
  exact ht

-- ---------------------------------------------------------------------------
-- Stepping lemmas for the deserialisation primitives.  Each lemma consumes a
-- known byte chunk at the cursor and reports the new cursor together with
-- the bytes that remain after it.
-- ---------------------------------------------------------------------------

theorem drop_after (full : List Nat) (pos : Nat) (pre rest : List Nat)
    (h : full.drop pos = pre ++ rest) :
    full.drop (pos + pre.length) = rest := by
  rw [← List.drop_drop, h, List.drop_left]

theorem fdRead_spec (full : List Nat) (pos : Nat) (pre rest : List Nat)
    (h : full.drop pos = pre ++ rest) :
    fdRead (pre.length : Int) ⟨full, pos⟩ = (pre, ⟨full, pos + pre.length⟩) := by
  unfold fdRead
  simp only [h]
  rw [if_neg (by omega)]
  simp [List.take_left]

theorem readInt_any_spec (full : List Nat) (pos : Nat) (v : Int) (rest : List Nat)
    (h : full.drop pos = encodeI32 v ++ rest) :
    readInt ⟨full, pos⟩ = .ok (decodeI32 (encodeI32 v), ⟨full, pos + 4⟩) ∧
      full.drop (pos + 4) = rest := by
  have h4 : ((encodeI32 v).length : Int) = (4 : Int) := by rw [encodeI32_length]; rfl
  have hr := fdRead_spec full pos (encodeI32 v) rest h
  rw [h4, encodeI32_length] at hr
  refine ⟨?_, ?_⟩
  · unfold readInt
    rw [hr]
    dsimp only
    rw [if_neg (by simp [encodeI32, le4]), if_neg (by rw [encodeI32_length]; simp)]
  · have := drop_after full pos (encodeI32 v) rest h
    rwa [encodeI32_length] at this

theorem readInt_spec (full : List Nat) (pos : Nat) (v : Int) (rest : List Nat)
    (h : full.drop pos = encodeI32 v ++ rest) (h0 : 0 ≤ v) (h1 : v < 2147483648) :
    readInt ⟨full, pos⟩ = .ok (v, ⟨full, pos + 4⟩) ∧
      full.drop (pos + 4) = rest := by
  have := readInt_any_spec full pos v rest h
  rwa [decodeI32_encodeI32 v h0 h1] at this

theorem readStr_spec (full : List Nat) (pos : Nat) (s rest : List Nat)
    (h : full.drop pos = writeStr s ++ rest) (hne : s ≠ [])
    (hlen : s.length < 2147483648) :
    readStr ⟨full, pos⟩ = .ok (s, ⟨full, pos + 4 + s.length⟩) ∧
      full.drop (pos + 4 + s.length) = rest := by
  rw [writeStr, List.append_assoc] at h
  obtain ⟨hi, hd⟩ := readInt_spec full pos (s.length : Int) (s ++ rest) h
    (by omega) (by exact_mod_cast hlen)
  have hr : fdRead ((s.length : Nat) : Int) ⟨full, pos + 4⟩ =
      (s, ⟨full, pos + 4 + s.length⟩) := fdRead_spec full (pos + 4) s rest hd
  refine ⟨?_, drop_after full (pos + 4) s rest hd⟩
  unfold readStr
  rw [hi, ebind_ok, hr]
  dsimp only
  rw [if_neg (by simpa using hne)]

theorem readDouble_spec (full : List Nat) (pos : Nat) (t rest : List Nat)
    (h : full.drop pos = t ++ rest) (hlen : t.length = 8) :
    readDouble ⟨full, pos⟩ = .ok (t, ⟨full, pos + 8⟩) ∧
      full.drop (pos + 8) = rest := by
  have hr := fdRead_spec full pos t rest h
  rw [hlen] at hr
  norm_cast at hr
  have hd := drop_after full pos t rest h
  rw [hlen] at hd
  refine ⟨?_, hd⟩
  unfold readDouble
  rw [hr]
  dsimp only
  rw [if_neg (by intro hc; rw [List.isEmpty_iff] at hc; simp [hc] at hlen),
    if_neg (by rw [hlen]; simp)]

-- ---------------------------------------------------------------------------
-- Length bookkeeping for serialised headers and bodies
-- ---------------------------------------------------------------------------

theorem columnBytes_length (c : Column) :
    (columnBytes c).length = strLen c.name + TYPE_LEN := by
  simp [columnBytes, writeStr, encodeI32, le4, strLen, SIZE_LEN, TYPE_LEN]
  omega

theorem flatMap_columnBytes_length (header : List Column) :
    (header.flatMap columnBytes).length =
      (header.map (fun c => strLen c.name + TYPE_LEN)).sum := by
  induction header with
  | nil => rfl
  | cons c t ih => simp [List.flatMap_cons, ih, columnBytes_length]

theorem readHeaderN_spec (header : List Column) :
    ∀ (full : List Nat) (pos : Nat) (rest : List Nat),
    full.drop pos = header.flatMap columnBytes ++ rest →
    headerWf header →
    readHeaderN header.length ⟨full, pos⟩ =
      .ok (header, ⟨full, pos + (header.flatMap columnBytes).length⟩) ∧
    full.drop (pos + (header.flatMap columnBytes).length) = rest := by
  induction header with
  | nil =>
    intro full pos rest h _
    simpa [readHeaderN] using h
  | cons c t ih =>
    intro full pos rest h hwf
    obtain ⟨hcn, hcl, hct⟩ := hwf c (by simp)
    have htwf : headerWf t := fun x hx => hwf x (by simp [hx])
    rw [List.flatMap_cons, columnBytes, List.append_assoc, List.append_assoc] at h
    obtain ⟨hs, hd1⟩ := readStr_spec full pos c.name _ h hcn hcl
    obtain ⟨hty0, hty8⟩ := hct
    obtain ⟨hi, hd2⟩ := readInt_spec full (pos + 4 + c.name.length) c.type _ hd1
      hty0 (by omega)
    obtain ⟨hrec, hd3⟩ := ih full (pos + 4 + c.name.length + 4) rest hd2 htwf
    have hlen : (c :: t).length = t.length + 1 := by simp
    refine ⟨?_, ?_⟩
    · rw [hlen]
      show readHeaderN (t.length + 1) ⟨full, pos⟩ = _
      unfold readHeaderN
      rw [hs, ebind_ok, hi, ebind_ok, hrec, ebind_ok]
      have : pos + 4 + c.name.length + 4 + (t.flatMap columnBytes).length =
          pos + ((c :: t).flatMap columnBytes).length := by
        rw [List.flatMap_cons, List.length_append, columnBytes_length]
        simp [strLen, SIZE_LEN, TYPE_LEN]
        omega
      rw [this]
    · have : pos + 4 + c.name.length + 4 + (t.flatMap columnBytes).length =
          pos + ((c :: t).flatMap columnBytes).length := by
        rw [List.flatMap_cons, List.length_append, columnBytes_length]
        simp [strLen, SIZE_LEN, TYPE_LEN]
        omega
      rwa [this] at hd3

theorem typeSize_pos (t : Int) (h : typeKnown t) : 1 ≤ typeSize t := by
  obtain ⟨h0, h8⟩ := h
  interval_cases t <;> decide

theorem rowWidth_pos (header : List Column) (hne : header ≠ [])
    (hwf : headerWf header) : 0 < rowWidth header := by
  cases header with
  | nil => exact absurd rfl hne
  | cons c t =>
    have := typeSize_pos c.type (hwf c (by simp)).2.2
    simp only [rowWidth, List.map_cons, List.sum_cons]
    omega

theorem matrixBodyBytes_length (name : List Nat) (m : NpMatrix) :
    (matrixBodyBytes name m).length =
      4 + name.length + (4 + (m.header.flatMap columnBytes).length) + 4 +
        m.data.length := by
  simp [matrixBodyBytes, writeStr, headerBytes, encodeI32, le4]
  omega

theorem deserialiseMatrixFn_spec (full : List Nat) (pos : Nat) (name : List Nat)
    (m : NpMatrix) (rest : List Nat)
    (h : full.drop pos = matrixBodyBytes name m ++ rest)
    (hname : name ≠ []) (hnlen : name.length < 2147483648)
    (hh : headerWf m.header) (hdt : dtypeOk m.header) (hhne : m.header ≠ [])
    (hhlen : m.header.length < 2147483648) (hrows : m.rows < 2147483648)
    (hdata : m.data.length = m.rows * rowWidth m.header) :
    deserialiseMatrixFn ⟨full, pos⟩ =
      .ok (.mat name m.header m.rows m.data,
        ⟨full, pos + (matrixBodyBytes name m).length⟩) ∧
    full.drop (pos + (matrixBodyBytes name m).length) = rest := by
  rw [matrixBodyBytes, headerBytes] at h
  simp only [List.append_assoc] at h
  obtain ⟨hs, hd1⟩ := readStr_spec full pos name _ h hname hnlen
  obtain ⟨hi1, hd2⟩ := readInt_spec full (pos + 4 + name.length)
    (m.header.length : Int) _ hd1 (by omega) (by exact_mod_cast hhlen)
  obtain ⟨hhd, hd3⟩ := readHeaderN_spec m.header full (pos + 4 + name.length + 4)
    _ hd2 hh
  obtain ⟨hi2, hd4⟩ := readInt_spec full
    (pos + 4 + name.length + 4 + (m.header.flatMap columnBytes).length)
    (m.rows : Int) _ hd3 (by omega) (by exact_mod_cast hrows)
  have hisz : 0 < rowWidth m.header := rowWidth_pos m.header hhne hh
  have hr : fdRead ((m.rows : Int) * ((rowWidth m.header : Nat) : Int))
      ⟨full, pos + 4 + name.length + 4 + (m.header.flatMap columnBytes).length + 4⟩ =
      (m.data, ⟨full, pos + 4 + name.length + 4 +
        (m.header.flatMap columnBytes).length + 4 + m.data.length⟩) := by
    have harg : ((m.data.length : Nat) : Int) =
        (m.rows : Int) * ((rowWidth m.header : Nat) : Int) := by
      rw [hdata]; push_cast; ring
    rw [← harg]
    exact fdRead_spec full _ m.data rest hd4
  have hdrop := drop_after full
    (pos + 4 + name.length + 4 + (m.header.flatMap columnBytes).length + 4)
    m.data rest hd4
  have hlenEq : pos + 4 + name.length + 4 + (m.header.flatMap columnBytes).length +
      4 + m.data.length = pos + (matrixBodyBytes name m).length := by
    rw [matrixBodyBytes_length]; omega
  constructor
  · unfold deserialiseMatrixFn
    rw [hs, ebind_ok, hi1, ebind_ok, Int.toNat_natCast, hhd, ebind_ok, hi2,
      ebind_ok]
    rw [if_neg (not_not_intro hdt)]
    dsimp only
    rw [hr]
    dsimp only
    rw [if_neg (by omega), if_neg (by rw [hdata, Nat.mul_mod_left]; simp)]
    rw [hdata, Nat.mul_div_cancel m.rows hisz]
    rw [show pos + 4 + name.length + 4 + (m.header.flatMap columnBytes).length +
      4 + m.rows * rowWidth m.header = pos + (matrixBodyBytes name m).length from
      by rw [← hdata]; exact hlenEq]
  · rwa [hlenEq] at hdrop

-- ---------------------------------------------------------------------------
-- Marker synchronisation: the scan loop of `_synchronise`
-- ---------------------------------------------------------------------------

theorem or_lo_hi (a c : Nat) (ha : a < 16777216) :
    a ||| (c <<< 24) = c <<< 24 + a := by
  apply Nat.eq_of_testBit_eq
  intro j
  have hrhs : c <<< 24 + a = 2 ^ 24 * c + a := by
    rw [Nat.shiftLeft_eq]; ring
  rw [hrhs, Nat.testBit_mul_pow_two_add c (by norm_num at ha ⊢; omega) j,
    Nat.testBit_or, Nat.testBit_shiftLeft]
  by_cases hj : j < 24
  · rw [if_pos hj]
    simp [Nat.not_le.mpr hj]
  · rw [if_neg hj]
    have : a.testBit j = false :=
      Nat.testBit_eq_false_of_lt (lt_of_lt_of_le ha
        (by calc (16777216 : Nat) = 2 ^ 24 := by norm_num
              _ ≤ 2 ^ j := Nat.pow_le_pow_right (by norm_num) (by omega)))
    simp [this, Nat.le_of_not_lt hj]

/-- One step of the rolling 32-bit scan window, written as plain arithmetic:
for a window value below `2^32` and a byte `c`, the Python update
`sync = (sync >> 8) | (ord(c) << 24)` computes `c * 2^24 + sync / 2^8`. -/
theorem windowStep_arith (w c : Nat) (hw : w < 4294967296) :
    (w >>> 8) ||| (c <<< 24) = c * 16777216 + w / 256 := by
  have h256 : w >>> 8 = w / 256 := by
    rw [Nat.shiftRight_eq_div_pow]
  have hlo : w >>> 8 < 16777216 := by
    rw [h256]
    omega
  rw [or_lo_hi _ c hlo, Nat.shiftLeft_eq, h256]

theorem syncLoop_cons (marker : Nat) (c : Nat) (rest : List Nat) (sync : Nat)
    (f : Bool) :
    syncLoop marker (c :: rest) sync f =
      if (sync >>> 8) ||| (c <<< 24) = marker then .ok (true, 1)
      else
        match syncLoop marker rest ((sync >>> 8) ||| (c <<< 24)) false with
        | .ok (b, n) => .ok (b, n + 1)
        | .error e => .error e := rfl

/-- Scanning a stream that continues with the serialised start marker finds
the marker after exactly its four bytes, whatever 32-bit window value the
preceding bytes left behind. -/
theorem syncLoop_found (w : Nat) (hw : w < 4294967296) (f : Bool)
    (rest : List Nat) :
    syncLoop BLOCK_START_SEQUENCE (218 :: 140 :: 90 :: 102 :: rest) w f =
      .ok (true, 4) := by
  have hM : BLOCK_START_SEQUENCE = 1717210330 := rfl
  have e1 := windowStep_arith w 218 hw
  have l1 : 218 * 16777216 + w / 256 < 4294967296 := by omega
  have e2 := windowStep_arith (218 * 16777216 + w / 256) 140 l1
  have l2 : 140 * 16777216 + (218 * 16777216 + w / 256) / 256 < 4294967296 := by
    omega
  have e3 := windowStep_arith (140 * 16777216 + (218 * 16777216 + w / 256) / 256)
    90 l2
  have l3 : 90 * 16777216 +
      (140 * 16777216 + (218 * 16777216 + w / 256) / 256) / 256 < 4294967296 := by
    omega
  have e4 := windowStep_arith
    (90 * 16777216 + (140 * 16777216 + (218 * 16777216 + w / 256) / 256) / 256)
    102 l3
  rw [syncLoop_cons, e1, if_neg (by omega)]
  rw [syncLoop_cons, e2, if_neg (by omega)]
  rw [syncLoop_cons, e3, if_neg (by omega)]
  rw [syncLoop_cons, e4, if_pos (by omega)]

theorem encodeI32_start : encodeI32 ((BLOCK_START_SEQUENCE : Nat) : Int) =
    [218, 140, 90, 102] := by decide

theorem encodeI32_end : encodeI32 ((BLOCK_END_SEQUENCE : Nat) : Int) =
    [203, 98, 0, 66] := by decide

/-- Synchronising right at a serialised start marker consumes exactly its
four bytes and reports success. -/
theorem synchronise_at_marker (full : List Nat) (pos : Nat) (rest : List Nat)
    (h : full.drop pos = encodeI32 ((BLOCK_START_SEQUENCE : Nat) : Int) ++ rest) :
    synchronise BLOCK_START_SEQUENCE ⟨full, pos⟩ = .ok (true, ⟨full, pos + 4⟩) ∧
      full.drop (pos + 4) = rest := by
  rw [encodeI32_start] at h
  constructor
  · unfold synchronise
    dsimp only
    rw [h]
    have hl : ([218, 140, 90, 102] ++ rest : List Nat) =
      218 :: 140 :: 90 :: 102 :: rest := rfl
    rw [hl, syncLoop_found 0 (by norm_num) true rest]
  · have := drop_after full pos [218, 140, 90, 102] rest h
    simpa using this

/-- Parsing one framed matrix block whose payload is intact and well-formed:
the parser consumes exactly the payload, so it succeeds precisely when the
declared length equals the true distance from just after the length field
to just before the end marker (`4 + (matrixBodyBytes name m).length`), and
raises the `"Invalid block length"` framing error for every other declared
length. -/
theorem deserialiseFn_matrix_frame (full : List Nat) (pos posA : Nat)
    (L : Int) (name : List Nat) (m : NpMatrix) (rest : List Nat)
    (hsync : synchronise BLOCK_START_SEQUENCE ⟨full, pos⟩ =
      .ok (true, ⟨full, posA⟩))
    (h : full.drop posA = encodeI32 L ++ encodeI32 BLOCK_TYPE_MATRIX ++
      matrixBodyBytes name m ++ encodeI32 ((BLOCK_END_SEQUENCE : Nat) : Int) ++
      rest)
    (hL0 : 0 ≤ L) (hL1 : L < 2147483648)
    (hname : name ≠ []) (hnlen : name.length < 2147483648)
    (hh : headerWf m.header) (hdt : dtypeOk m.header) (hhne : m.header ≠ [])
    (hhlen : m.header.length < 2147483648) (hrows : m.rows < 2147483648)
    (hdata : m.data.length = m.rows * rowWidth m.header) :
    deserialiseFn ⟨full, pos⟩ =
      if L = ((4 + (matrixBodyBytes name m).length : Nat) : Int) then
        .ok (some (BLOCK_TYPE_MATRIX, .mat name m.header m.rows m.data),
          ⟨full, posA + 8 + (matrixBodyBytes name m).length + 4⟩)
      else .error "Invalid block length" := by
  simp only [List.append_assoc] at h
  obtain ⟨hiL, hd1⟩ := readInt_spec full posA L _ h hL0 hL1
  obtain ⟨hiT, hd2⟩ := readInt_spec full (posA + 4) BLOCK_TYPE_MATRIX _ hd1
    (by norm_num [BLOCK_TYPE_MATRIX]) (by norm_num [BLOCK_TYPE_MATRIX])
  obtain ⟨hm, hd3⟩ := deserialiseMatrixFn_spec full (posA + 4 + 4) name m _ hd2
    hname hnlen hh hdt hhne hhlen hrows hdata
  obtain ⟨hiE, hd4⟩ := readInt_spec full
    (posA + 4 + 4 + (matrixBodyBytes name m).length)
    ((BLOCK_END_SEQUENCE : Nat) : Int) _ hd3
    (by norm_num) (by norm_num [BLOCK_END_SEQUENCE])
  unfold deserialiseFn
  rw [hsync]
  dsimp only
  rw [hiL, ebind_ok, hiT, ebind_ok]
  dsimp only [tellFn]
  rw [show readBlockContent BLOCK_TYPE_MATRIX
      ⟨full, posA + 4 + 4⟩ = deserialiseMatrixFn ⟨full, posA + 4 + 4⟩ from
      by rw [readBlockContent, if_pos rfl]]
  rw [hm, ebind_ok]
  dsimp only [tellFn]
  have hsub : posA + 4 + 4 + (matrixBodyBytes name m).length - (posA + 4) =
      4 + (matrixBodyBytes name m).length := by omega
  rw [hsub]
  by_cases hLeq : L = ((4 + (matrixBodyBytes name m).length : Nat) : Int)
  · rw [if_pos hLeq, if_neg (fun hc => hc hLeq.symm)]
    rw [hiE, ebind_ok]
    rw [if_neg (not_not_intro rfl)]
  · rw [if_neg hLeq, if_pos (fun hc => hLeq hc.symm)]

-- ---------------------------------------------------------------------------
-- Cursor monotonicity of the readers, and the seekable-stream instance
-- ---------------------------------------------------------------------------

theorem fdRead_le (n : Int) (s : RS) : s.pos ≤ (fdRead n s).2.pos := by
  unfold fdRead
  dsimp only
  omega

theorem readInt_le (s : RS) (v : Int) (s' : RS)
    (h : readInt s = .ok (v, s')) : s.pos ≤ s'.pos := by
  have hf := fdRead_le 4 s
  unfold readInt at h
  rcases hfd : fdRead 4 s with ⟨data, s1⟩
  rw [hfd] at h hf
  dsimp only at h hf
  split at h
  · cases h
  · split at h
    · cases h
    · simp only [Except.ok.injEq, Prod.mk.injEq] at h
      obtain ⟨-, hs⟩ := h
      rw [← hs]
      exact hf

theorem readDouble_le (s : RS) (v : List Nat) (s' : RS)
    (h : readDouble s = .ok (v, s')) : s.pos ≤ s'.pos := by
  have hf := fdRead_le 8 s
  unfold readDouble at h
  rcases hfd : fdRead 8 s with ⟨data, s1⟩
  rw [hfd] at h hf
  dsimp only at h hf
  split at h
  · cases h
  · split at h
    · cases h
    · simp only [Except.ok.injEq, Prod.mk.injEq] at h
      obtain ⟨-, hs⟩ := h
      rw [← hs]
      exact hf

theorem readStr_le (s : RS) (v : List Nat) (s' : RS)
    (h : readStr s = .ok (v, s')) : s.pos ≤ s'.pos := by
  unfold readStr at h
  cases hri : readInt s with
  | error e => rw [hri] at h; cases h
  | ok p =>
    obtain ⟨n, s1⟩ := p
    rw [hri, ebind_ok] at h
    have h1 := readInt_le s n s1 hri
    have hf := fdRead_le n s1
    rcases hfd : fdRead n s1 with ⟨data, s2⟩
    rw [hfd] at h hf
    dsimp only at h hf
    split at h
    · cases h
    · simp only [Except.ok.injEq, Prod.mk.injEq] at h
      obtain ⟨-, hs⟩ := h
      rw [← hs]
      omega

theorem readHeaderN_le : ∀ (n : Nat) (s : RS) (hdr : List Column) (s' : RS),
    readHeaderN n s = .ok (hdr, s') → s.pos ≤ s'.pos := by
  intro n
  induction n with
  | zero =>
    intro s hdr s' h
    unfold readHeaderN at h
    simp only [Except.ok.injEq, Prod.mk.injEq] at h
    obtain ⟨-, hs⟩ := h
    rw [← hs]
  | succ k ih =>
    intro s hdr s' h
    unfold readHeaderN at h
    cases hrs : readStr s with
    | error e => rw [hrs] at h; cases h
    | ok p =>
      obtain ⟨nm, s1⟩ := p
      rw [hrs, ebind_ok] at h
      cases hri : readInt s1 with
      | error e => rw [hri] at h; cases h
      | ok q =>
        obtain ⟨ty, s2⟩ := q
        rw [hri, ebind_ok] at h
        cases hrn : readHeaderN k s2 with
        | error e => rw [hrn] at h; cases h
        | ok r =>
          obtain ⟨rest, s3⟩ := r
          rw [hrn, ebind_ok] at h
          simp only [Except.ok.injEq, Prod.mk.injEq] at h
          obtain ⟨-, hs⟩ := h
          have ha := readStr_le s nm s1 hrs
          have hb := readInt_le s1 ty s2 hri
          have hc := ih s2 rest s3 hrn
          rw [← hs]
          omega

theorem deserialiseMatrixFn_le (s : RS) (c : Content) (s' : RS)
    (h : deserialiseMatrixFn s = .ok (c, s')) : s.pos ≤ s'.pos := by
  unfold deserialiseMatrixFn at h
  cases hn : readStr s with
  | error e => rw [hn] at h; cases h
  | ok p =>
    obtain ⟨name, s1⟩ := p
    rw [hn, ebind_ok] at h
    cases hc1 : readInt s1 with
    | error e => rw [hc1] at h; cases h
    | ok q =>
      obtain ⟨hcnt, s2⟩ := q
      rw [hc1, ebind_ok] at h
      cases hh : readHeaderN hcnt.toNat s2 with
      | error e => rw [hh] at h; cases h
      | ok r =>
        obtain ⟨hdr, s3⟩ := r
        rw [hh, ebind_ok] at h
        cases hr : readInt s3 with
        | error e => rw [hr] at h; cases h
        | ok t =>
          obtain ⟨rows, s4⟩ := t
          rw [hr, ebind_ok] at h
          have ha := readStr_le s name s1 hn
          have hb := readInt_le s1 hcnt s2 hc1
          have hcle := readHeaderN_le hcnt.toNat s2 hdr s3 hh
          have hd := readInt_le s3 rows s4 hr
          split at h
          · cases h
          · dsimp only at h
            have hf := fdRead_le (rows * ((rowWidth hdr : Nat) : Int)) s4
            rcases hfd : fdRead (rows * ((rowWidth hdr : Nat) : Int)) s4
              with ⟨data, s5⟩
            rw [hfd] at h hf
            dsimp only at h hf
            split at h
            · cases h
            · split at h
              · cases h
              · simp only [Except.ok.injEq, Prod.mk.injEq] at h
                obtain ⟨-, hs⟩ := h
                rw [← hs]
                omega

theorem deserialiseLogFn_le (s : RS) (c : Content) (s' : RS)
    (h : deserialiseLogFn s = .ok (c, s')) : s.pos ≤ s'.pos := by
  unfold deserialiseLogFn at h
  cases ht : readDouble s with
  | error e => rw [ht] at h; cases h
  | ok p =>
    obtain ⟨time, s1⟩ := p
    rw [ht, ebind_ok] at h
    cases hv : readInt s1 with
    | error e => rw [hv] at h; cases h
    | ok q =>
      obtain ⟨sev, s2⟩ := q
      rw [hv, ebind_ok] at h
      cases hm : readStr s2 with
      | error e => rw [hm] at h; cases h
      | ok r =>
        obtain ⟨module, s3⟩ := r
        rw [hm, ebind_ok] at h
        cases hg : readStr s3 with
        | error e => rw [hg] at h; cases h
        | ok t =>
          obtain ⟨msg, s4⟩ := t
          rw [hg, ebind_ok] at h
          simp only [Except.ok.injEq, Prod.mk.injEq] at h
          obtain ⟨-, hs⟩ := h
          have ha := readDouble_le s time s1 ht
          have hb := readInt_le s1 sev s2 hv
          have hcle := readStr_le s2 module s3 hm
          have hd := readStr_le s3 msg s4 hg
          rw [← hs]
          omega

theorem readBlockContent_le (bt : Int) (s : RS) (c : Content) (s' : RS)
    (h : readBlockContent bt s = .ok (c, s')) : s.pos ≤ s'.pos := by
  unfold readBlockContent at h
  split at h
  · exact deserialiseMatrixFn_le s c s' h
  · split at h
    · exact deserialiseLogFn_le s c s' h
    · cases h

/-- On a seekable stream, the general `deserialise` model coincides with
`deserialiseFn`: `_tell` succeeds at both probe points and the cursor only
moves forward, so the Python `pos1 - pos0` is the cursor distance. -/
theorem deserialiseTell_true_eq (s : RS) :
    deserialiseTell true s = deserialiseFn s := by
  unfold deserialiseTell deserialiseFn
  cases hsync : synchronise BLOCK_START_SEQUENCE s with
  | error e => rfl
  | ok p =>
    obtain ⟨b, s1⟩ := p
    cases b
    · rfl
    · dsimp only
      cases hL : readInt s1 with
      | error e => rfl
      | ok q =>
        obtain ⟨L, s2⟩ := q
        simp only [ebind_ok]
        cases hT : readInt s2 with
        | error e => rfl
        | ok r =>
          obtain ⟨bt, s3⟩ := r
          simp only [ebind_ok]
          cases hC : readBlockContent bt s3 with
          | error e => rfl
          | ok t =>
            obtain ⟨res, s4⟩ := t
            simp only [ebind_ok]
            have h23 := readInt_le s2 bt s3 hT
            have h34 := readBlockContent_le bt s3 res s4 hC
            have hle : s2.pos ≤ s4.pos := le_trans h23 h34
            have hcond : (0 ≤ tellG true s2 ∧ 0 ≤ tellG true s4 ∧
                tellG true s4 - tellG true s2 ≠ L) ↔
                (((tellFn s4 - tellFn s2 : Nat) : Int) ≠ L) := by
              have ht2 : tellG true s2 = (s2.pos : Int) := rfl
              have ht4 : tellG true s4 = (s4.pos : Int) := rfl
              have htf2 : tellFn s2 = s2.pos := rfl
              have htf4 : tellFn s4 = s4.pos := rfl
              rw [ht2, ht4, htf2, htf4, Nat.cast_sub hle]
              constructor
              · intro hcon
                exact hcon.2.2
              · intro hne
                exact ⟨Int.natCast_nonneg s2.pos, Int.natCast_nonneg s4.pos, hne⟩
            rw [if_congr hcond rfl rfl]

/-- Parsing one framed matrix block with intact well-formed payload, on a
stream of either seekability: on a seekable stream the declared length is
checked against the cursor distance and any mismatch raises "Invalid block
length"; on a non-seekable stream `_tell` returns -1, the guard at
binnf.py line 323 skips the check, and the block is returned whatever the
declared length says. -/
theorem deserialiseTell_matrix_frame (seekable : Bool) (full : List Nat)
    (pos posA : Nat) (L : Int) (name : List Nat) (m : NpMatrix)
    (rest : List Nat)
    (hsync : synchronise BLOCK_START_SEQUENCE ⟨full, pos⟩ =
      .ok (true, ⟨full, posA⟩))
    (h : full.drop posA = encodeI32 L ++ encodeI32 BLOCK_TYPE_MATRIX ++
      matrixBodyBytes name m ++ encodeI32 ((BLOCK_END_SEQUENCE : Nat) : Int) ++
      rest)
    (hL0 : 0 ≤ L) (hL1 : L < 2147483648)
    (hname : name ≠ []) (hnlen : name.length < 2147483648)
    (hh : headerWf m.header) (hdt : dtypeOk m.header) (hhne : m.header ≠ [])
    (hhlen : m.header.length < 2147483648) (hrows : m.rows < 2147483648)
    (hdata : m.data.length = m.rows * rowWidth m.header) :
    deserialiseTell seekable ⟨full, pos⟩ =
      if seekable = true ∧
          L ≠ ((4 + (matrixBodyBytes name m).length : Nat) : Int) then
        .error "Invalid block length"
      else
        .ok (some (BLOCK_TYPE_MATRIX, .mat name m.header m.rows m.data),
          ⟨full, posA + 8 + (matrixBodyBytes name m).length + 4⟩) := by
  simp only [List.append_assoc] at h
  obtain ⟨hiL, hd1⟩ := readInt_spec full posA L _ h hL0 hL1
  obtain ⟨hiT, hd2⟩ := readInt_spec full (posA + 4) BLOCK_TYPE_MATRIX _ hd1
    (by norm_num [BLOCK_TYPE_MATRIX]) (by norm_num [BLOCK_TYPE_MATRIX])
  obtain ⟨hm, hd3⟩ := deserialiseMatrixFn_spec full (posA + 4 + 4) name m _ hd2
    hname hnlen hh hdt hhne hhlen hrows hdata
  obtain ⟨hiE, hd4⟩ := readInt_spec full
    (posA + 4 + 4 + (matrixBodyBytes name m).length)
    ((BLOCK_END_SEQUENCE : Nat) : Int) _ hd3
    (by norm_num) (by norm_num [BLOCK_END_SEQUENCE])
  unfold deserialiseTell
  rw [hsync]
  dsimp only
  rw [hiL, ebind_ok, hiT, ebind_ok]
  rw [show readBlockContent BLOCK_TYPE_MATRIX
      ⟨full, posA + 4 + 4⟩ = deserialiseMatrixFn ⟨full, posA + 4 + 4⟩ from
      by rw [readBlockContent, if_pos rfl]]
  rw [hm, ebind_ok]
  cases seekable
  · rw [if_neg (fun hcon => by
      have h1 := hcon.1
      rw [show tellG false ⟨full, posA + 4⟩ = -1 from rfl] at h1
      omega)]
    rw [if_neg (fun hcon => Bool.false_ne_true hcon.1)]
    rw [hiE, ebind_ok]
    rw [if_neg (not_not_intro rfl)]
  · have ht0 : tellG true (⟨full, posA + 4⟩ : RS) = ((posA + 4 : Nat) : Int) :=
      rfl
    have ht1 : tellG true
        (⟨full, posA + 4 + 4 + (matrixBodyBytes name m).length⟩ : RS) =
        ((posA + 4 + 4 + (matrixBodyBytes name m).length : Nat) : Int) := rfl
    rw [ht0, ht1]
    by_cases hLeq : L = ((4 + (matrixBodyBytes name m).length : Nat) : Int)
    · rw [if_neg (fun hcon => hcon.2.2 (by push_cast; push_cast at hLeq; omega))]
      rw [if_neg (fun hcon => hcon.2 hLeq)]
      rw [hiE, ebind_ok]
      rw [if_neg (not_not_intro rfl)]
    · rw [if_pos ⟨by push_cast; omega, by push_cast; omega,
        fun hcon => hLeq (by push_cast at hcon ⊢; omega)⟩]
      rw [if_pos ⟨rfl, hLeq⟩]

theorem npCols_none (m : NpMatrix) (h2 : m.shape2 = none) :
    npCols m = m.header.length := by
  unfold npCols
  rw [h2]

/-- For a one-dimensional record array the column-count check of
`serialise_matrix` always passes and the full frame is written. -/
theorem serialiseMatrix_1d (name : List Nat) (m : NpMatrix)
    (h2 : m.shape2 = none) :
    serialiseMatrix name m =
      (encodeI32 ((BLOCK_START_SEQUENCE : Nat) : Int) ++
        (encodeI32 ((matrixBlockLen name m : Nat) : Int) ++
          (encodeI32 BLOCK_TYPE_MATRIX ++
            (matrixBodyBytes name m ++
              encodeI32 ((BLOCK_END_SEQUENCE : Nat) : Int)))), none) := by
  unfold serialiseMatrix
  rw [npCols_none m h2, if_neg (not_not_intro rfl)]
  simp [matrixBodyBytes, List.append_assoc]

theorem headerLen_ge (header : List Column) :
    header.length ≤ (header.map (fun c => strLen c.name + TYPE_LEN)).sum := by
  induction header with
  | nil => simp
  | cons c t ih =>
    simp only [List.map_cons, List.sum_cons, List.length_cons]
    have : 1 ≤ strLen c.name + TYPE_LEN := by simp [strLen, SIZE_LEN, TYPE_LEN]
    omega

/-- For a one-dimensional record array whose raw bytes have the length the
dtype implies, the declared block length written by `serialise_matrix` is
exactly the distance from after the length field to before the end
marker. -/
theorem blockLen_eq_body (name : List Nat) (m : NpMatrix)
    (h2 : m.shape2 = none) (hdata : m.data.length = m.rows * rowWidth m.header) :
    matrixBlockLen name m = 4 + (matrixBodyBytes name m).length := by
  have hsz : npSize m = m.rows := by unfold npSize; rw [h2]
  rw [matrixBodyBytes_length, matrixBlockLen, strLen, headerLen, matrixLen,
    flatMap_columnBytes_length, hsz, hdata]
  unfold BLOCK_TYPE_LEN SIZE_LEN
  omega

/-- C1 (amended): serialising a one-dimensional record matrix and
deserialising the bytes returns the same name, the same ordered header and
bit-for-bit the same row data, provided the block name and every column
name are nonempty and the header has at least one column.  The whole frame
is consumed. -/
theorem c1_round_trip (name : List Nat) (m : NpMatrix)
    (h2 : m.shape2 = none) (hname : name ≠ [])
    (hh : headerWf m.header) (hdt : dtypeOk m.header) (hhne : m.header ≠ [])
    (hrows : m.rows < 2147483648) (hblk : matrixBlockLen name m < 2147483648)
    (hdata : m.data.length = m.rows * rowWidth m.header) :
    (serialiseMatrix name m).2 = none ∧
    deserialiseFn ⟨(serialiseMatrix name m).1, 0⟩ =
      .ok (some (BLOCK_TYPE_MATRIX, .mat name m.header m.rows m.data),
        ⟨(serialiseMatrix name m).1, 4 + 8 + (matrixBodyBytes name m).length + 4⟩) := by
  have hser := serialiseMatrix_1d name m h2
  have hfst : (serialiseMatrix name m).1 =
      encodeI32 ((BLOCK_START_SEQUENCE : Nat) : Int) ++
        (encodeI32 ((matrixBlockLen name m : Nat) : Int) ++
          (encodeI32 BLOCK_TYPE_MATRIX ++
            (matrixBodyBytes name m ++
              encodeI32 ((BLOCK_END_SEQUENCE : Nat) : Int)))) := by rw [hser]
  have hnlen : name.length < 2147483648 := by
    have : matrixBlockLen name m =
        BLOCK_TYPE_LEN + strLen name + headerLen m.header + matrixLen m := rfl
    unfold strLen SIZE_LEN at this
    omega
  have hhlen : m.header.length < 2147483648 := by
    have hg := headerLen_ge m.header
    have : matrixBlockLen name m =
        BLOCK_TYPE_LEN + strLen name + headerLen m.header + matrixLen m := rfl
    unfold headerLen SIZE_LEN at this
    omega
  have hdrop0 : (serialiseMatrix name m).1.drop 0 =
      encodeI32 ((BLOCK_START_SEQUENCE : Nat) : Int) ++
        (encodeI32 ((matrixBlockLen name m : Nat) : Int) ++
          (encodeI32 BLOCK_TYPE_MATRIX ++
            (matrixBodyBytes name m ++
              encodeI32 ((BLOCK_END_SEQUENCE : Nat) : Int)))) := by
    rw [List.drop_zero, hfst]
  obtain ⟨hsync, hdropA⟩ := synchronise_at_marker (serialiseMatrix name m).1 0 _
    hdrop0
  have hmaster := deserialiseFn_matrix_frame (serialiseMatrix name m).1 0 (0 + 4)
    ((matrixBlockLen name m : Nat) : Int) name m []
    hsync
    (by rw [hdropA]; simp [List.append_assoc])
    (by positivity) (by exact_mod_cast hblk)
    hname hnlen hh hdt hhne hhlen hrows hdata
  rw [if_pos (by rw [blockLen_eq_body name m h2 hdata])] at hmaster
  refine ⟨by rw [hser], ?_⟩
  rw [hmaster]

/-- C1 counterexample: the claim quantifies over every matrix block with
unique column names and matching row data, but a block whose name is the
empty string serialises fine and then fails to deserialise — `_read_str`
treats the zero-byte read of the empty name as end of file — so the round
trip does not return the name, header and rows. -/
theorem c1_counterexample :
    (serialiseMatrix [] ⟨[⟨[120], 4⟩], none, 1, [9, 8, 7, 6]⟩).2 = none ∧
    deserialiseFn
        ⟨(serialiseMatrix [] ⟨[⟨[120], 4⟩], none, 1, [9, 8, 7, 6]⟩).1, 0⟩ =
      .error "Unexpected end of file" :=
  ⟨rfl, rfl⟩

/-- C1 witness: the amended round trip evaluated on a concrete block named
"ab" with one int32 column "x" and one row of raw bytes `[9, 8, 7, 6]`. -/
theorem c1_witness :
    (serialiseMatrix [97, 98] ⟨[⟨[120], 4⟩], none, 1, [9, 8, 7, 6]⟩).2 = none ∧
    deserialiseFn
        ⟨(serialiseMatrix [97, 98] ⟨[⟨[120], 4⟩], none, 1, [9, 8, 7, 6]⟩).1, 0⟩ =
      .ok (some (BLOCK_TYPE_MATRIX,
          .mat [97, 98] [⟨[120], 4⟩] 1 [9, 8, 7, 6]),
        ⟨(serialiseMatrix [97, 98] ⟨[⟨[120], 4⟩], none, 1, [9, 8, 7, 6]⟩).1,
          4 + 8 + (matrixBodyBytes [97, 98]
            ⟨[⟨[120], 4⟩], none, 1, [9, 8, 7, 6]⟩).length + 4⟩) :=
  c1_round_trip [97, 98] ⟨[⟨[120], 4⟩], none, 1, [9, 8, 7, 6]⟩ rfl (by decide)
    (by decide) (by decide) (by decide) (by decide) (by decide) (by decide)

-- ---------------------------------------------------------------------------
-- Scan termination: clean EOF versus mid-scan EOF
-- ---------------------------------------------------------------------------

theorem windowVal_one (w c : Nat) : windowVal w [c] = windowStep w c := rfl

theorem neverHits_head (marker w c : Nat) (t : List Nat)
    (h : neverHitsMarker marker w (c :: t)) : windowStep w c ≠ marker := by
  have := h 1 (by omega) (by simp)
  simpa [windowVal] using this

theorem neverHits_tail (marker w c : Nat) (t : List Nat)
    (h : neverHitsMarker marker w (c :: t)) :
    neverHitsMarker marker (windowStep w c) t := by
  intro i h1 h2
  have := h (i + 1) (by omega) (by simp; omega)
  rwa [show (c :: t).take (i + 1) = c :: t.take i from rfl,
    show windowVal w (c :: t.take i) =
      windowVal (windowStep w c) (t.take i) from rfl] at this

/-- The scan loop of `_synchronise` raises "Unexpected end of file" when it
starts mid-stream (`first = False`) or has at least one byte to read, and
the rolling window never reaches the marker before the input ends. -/
theorem syncLoop_no_match (marker : Nat) (g : List Nat) :
    ∀ (w : Nat) (f : Bool), (f = false ∨ g ≠ []) →
    neverHitsMarker marker w g →
    syncLoop marker g w f = .error "Unexpected end of file" := by
  induction g with
  | nil =>
    intro w f hf _
    rcases hf with hf | hf
    · rw [hf]
      rfl
    · exact absurd rfl hf
  | cons c t ih =>
    intro w f hf hnm
    rw [syncLoop_cons, if_neg (show ¬((w >>> 8) ||| (c <<< 24) = marker) from
      neverHits_head marker w c t hnm)]
    rw [show syncLoop marker t ((w >>> 8) ||| (c <<< 24)) false =
      syncLoop marker t (windowStep w c) false from rfl,
      ih (windowStep w c) false (Or.inl rfl) (neverHits_tail marker w c t hnm)]

/-- C5: during the start-marker scan, clean end of stream is distinguished
from corruption solely by whether any bytes were read — with no bytes left,
`deserialise` returns the clean `(None, None)` result and leaves the cursor
in place; with at least one byte left but no completed start marker before
end of stream, it raises the "Unexpected end of file" framing error. -/
theorem c5_eof_distinction (s : RS) :
    (s.data.drop s.pos = [] → deserialiseFn s = .ok (none, s)) ∧
    (∀ g, s.data.drop s.pos = g → g ≠ [] →
      neverHitsMarker BLOCK_START_SEQUENCE 0 g →
      deserialiseFn s = .error "Unexpected end of file") := by
  obtain ⟨data, pos⟩ := s
  constructor
  · intro h
    unfold deserialiseFn synchronise
    dsimp only at h ⊢
    rw [h]
    rw [show syncLoop BLOCK_START_SEQUENCE [] 0 true = .ok (false, 0) from rfl]
    rfl
  · intro g hdrop hne hnm
    unfold deserialiseFn synchronise
    dsimp only at hdrop ⊢
    rw [hdrop, syncLoop_no_match BLOCK_START_SEQUENCE g 0 true (Or.inr hne) hnm]

/-- C5 witness: a stream with no bytes after the cursor yields the clean
end-of-stream result, while the one-byte stream `[0]` (zero never completes
the marker) raises the framing error. -/
theorem c5_witness :
    deserialiseFn ⟨[7], 1⟩ = .ok (none, ⟨[7], 1⟩) ∧
    deserialiseFn ⟨[0], 0⟩ = .error "Unexpected end of file" :=
  ⟨(c5_eof_distinction ⟨[7], 1⟩).1 rfl,
   (c5_eof_distinction ⟨[0], 0⟩).2 [0] rfl (by decide)
     (by
       intro i h1 h2
       have hi : i = 1 := by simp at h2; omega
       subst hi
       decide)⟩

-- ---------------------------------------------------------------------------
-- Resynchronisation across garbage bytes
-- ---------------------------------------------------------------------------

theorem syncLoop_skip (marker : Nat) (g : List Nat) :
    ∀ (w : Nat) (f : Bool) (r : List Nat), g ≠ [] →
    neverHitsMarker marker w g →
    syncLoop marker (g ++ r) w f =
      match syncLoop marker r (windowVal w g) false with
      | .ok (b, n) => .ok (b, n + g.length)
      | .error e => .error e := by
  induction g with
  | nil => intro w f r hne _; exact absurd rfl hne
  | cons c t ih =>
    intro w f r hne hnm
    rw [show ((c :: t) ++ r : List Nat) = c :: (t ++ r) from rfl]
    rw [syncLoop_cons, if_neg (show ¬((w >>> 8) ||| (c <<< 24) = marker) from
      neverHits_head marker w c t hnm)]
    by_cases ht : t = []
    · subst ht
      rw [show ([] ++ r : List Nat) = r from rfl]
      rw [show syncLoop marker r ((w >>> 8) ||| (c <<< 24)) false =
        syncLoop marker r (windowVal w [c]) false from rfl]
      cases hres : syncLoop marker r (windowVal w [c]) false with
      | ok p => obtain ⟨b, n⟩ := p; simp
      | error e => simp
    · rw [show syncLoop marker (t ++ r) ((w >>> 8) ||| (c <<< 24)) false =
        syncLoop marker (t ++ r) (windowStep w c) false from rfl]
      rw [ih (windowStep w c) false r ht (neverHits_tail marker w c t hnm)]
      rw [show windowVal (windowStep w c) t = windowVal w (c :: t) from rfl]
      cases hres : syncLoop marker r (windowVal w (c :: t)) false with
      | ok p =>
        obtain ⟨b, n⟩ := p
        simp
        omega
      | error e => simp

theorem windowStep_lt (w c : Nat) (hw : w < 4294967296) (hc : c < 256) :
    windowStep w c < 4294967296 := by
  rw [show windowStep w c = (w >>> 8) ||| (c <<< 24) from rfl,
    windowStep_arith w c hw]
  omega

theorem windowVal_lt (g : List Nat) : ∀ w, w < 4294967296 →
    (∀ b ∈ g, b < 256) → windowVal w g < 4294967296 := by
  induction g with
  | nil => intro w hw _; exact hw
  | cons c t ih =>
    intro w hw hb
    rw [show windowVal w (c :: t) = windowVal (windowStep w c) t from rfl]
    exact ih _ (windowStep_lt w c hw (hb c (by simp)))
      (fun b hbm => hb b (by simp [hbm]))

/-- C4 (amended): garbage bytes inserted before a valid frame — any nonempty
byte list whose rolling-window scan never completes the start marker — are
skipped and the frame still decodes to the block that was serialised.  (The
other half of the claim is false: trailing garbage does NOT yield clean end
of stream; see the counterexample.) -/
theorem c4_resync (g : List Nat) (name : List Nat) (m : NpMatrix)
    (hgne : g ≠ []) (hgb : ∀ b ∈ g, b < 256)
    (hnm : neverHitsMarker BLOCK_START_SEQUENCE 0 g)
    (h2 : m.shape2 = none) (hname : name ≠ [])
    (hh : headerWf m.header) (hdt : dtypeOk m.header) (hhne : m.header ≠ [])
    (hrows : m.rows < 2147483648) (hblk : matrixBlockLen name m < 2147483648)
    (hdata : m.data.length = m.rows * rowWidth m.header) :
    deserialiseFn ⟨g ++ (serialiseMatrix name m).1, 0⟩ =
      .ok (some (BLOCK_TYPE_MATRIX, .mat name m.header m.rows m.data),
        ⟨g ++ (serialiseMatrix name m).1,
          g.length + 16 + (matrixBodyBytes name m).length⟩) := by
  have hser := serialiseMatrix_1d name m h2
  have hfull : (g ++ (serialiseMatrix name m).1 : List Nat) =
      g ++ ([218, 140, 90, 102] ++
        (encodeI32 ((matrixBlockLen name m : Nat) : Int) ++
          (encodeI32 BLOCK_TYPE_MATRIX ++
            (matrixBodyBytes name m ++
              encodeI32 ((BLOCK_END_SEQUENCE : Nat) : Int))))) := by
    rw [show (serialiseMatrix name m).1 =
      encodeI32 ((BLOCK_START_SEQUENCE : Nat) : Int) ++
        (encodeI32 ((matrixBlockLen name m : Nat) : Int) ++
          (encodeI32 BLOCK_TYPE_MATRIX ++
            (matrixBodyBytes name m ++
              encodeI32 ((BLOCK_END_SEQUENCE : Nat) : Int)))) from by rw [hser],
      encodeI32_start]
  have hwlt : windowVal 0 g < 4294967296 := windowVal_lt g 0 (by norm_num) hgb
  have hscan : syncLoop BLOCK_START_SEQUENCE
      ((g ++ (serialiseMatrix name m).1).drop 0) 0 true =
      .ok (true, 4 + g.length) := by
    rw [List.drop_zero, hfull,
      syncLoop_skip BLOCK_START_SEQUENCE g 0 true _ hgne hnm]
    have hl : ([218, 140, 90, 102] ++
        (encodeI32 ((matrixBlockLen name m : Nat) : Int) ++
          (encodeI32 BLOCK_TYPE_MATRIX ++
            (matrixBodyBytes name m ++
              encodeI32 ((BLOCK_END_SEQUENCE : Nat) : Int)))) : List Nat) =
        218 :: 140 :: 90 :: 102 ::
          (encodeI32 ((matrixBlockLen name m : Nat) : Int) ++
            (encodeI32 BLOCK_TYPE_MATRIX ++
              (matrixBodyBytes name m ++
                encodeI32 ((BLOCK_END_SEQUENCE : Nat) : Int)))) := rfl
    rw [hl, syncLoop_found (windowVal 0 g) hwlt false _]
  have hsync : synchronise BLOCK_START_SEQUENCE
      ⟨g ++ (serialiseMatrix name m).1, 0⟩ =
      .ok (true, ⟨g ++ (serialiseMatrix name m).1, 0 + (4 + g.length)⟩) := by
    unfold synchronise
    rw [hscan]
  have hdropA : (g ++ (serialiseMatrix name m).1).drop (0 + (4 + g.length)) =
      encodeI32 ((matrixBlockLen name m : Nat) : Int) ++
        (encodeI32 BLOCK_TYPE_MATRIX ++
          (matrixBodyBytes name m ++
            encodeI32 ((BLOCK_END_SEQUENCE : Nat) : Int))) := by
    have hassoc : (g ++ (serialiseMatrix name m).1 : List Nat) =
        (g ++ [218, 140, 90, 102]) ++
          (encodeI32 ((matrixBlockLen name m : Nat) : Int) ++
            (encodeI32 BLOCK_TYPE_MATRIX ++
              (matrixBodyBytes name m ++
                encodeI32 ((BLOCK_END_SEQUENCE : Nat) : Int)))) := by
      rw [hfull, List.append_assoc]
    have := drop_after (g ++ (serialiseMatrix name m).1) 0 (g ++ [218, 140, 90, 102])
      _ (by rw [List.drop_zero]; exact hassoc)
    rwa [show (0 + (g ++ ([218, 140, 90, 102] : List Nat)).length) =
      0 + (4 + g.length) from by simp; omega] at this
  have hnlen : name.length < 2147483648 := by
    have : matrixBlockLen name m =
        BLOCK_TYPE_LEN + strLen name + headerLen m.header + matrixLen m := rfl
    unfold strLen SIZE_LEN at this
    omega
  have hhlen : m.header.length < 2147483648 := by
    have hg := headerLen_ge m.header
    have : matrixBlockLen name m =
        BLOCK_TYPE_LEN + strLen name + headerLen m.header + matrixLen m := rfl
    unfold headerLen SIZE_LEN at this
    omega
  have hmaster := deserialiseFn_matrix_frame (g ++ (serialiseMatrix name m).1) 0
    (0 + (4 + g.length)) ((matrixBlockLen name m : Nat) : Int) name m []
    hsync (by rw [hdropA]; simp [List.append_assoc])
    (by positivity) (by exact_mod_cast hblk)
    hname hnlen hh hdt hhne hhlen hrows hdata
  rw [if_pos (by rw [blockLen_eq_body name m h2 hdata])] at hmaster
  rw [hmaster]
  rw [show 0 + (4 + g.length) + 8 + (matrixBodyBytes name m).length + 4 =
    g.length + 16 + (matrixBodyBytes name m).length from by omega]

/-- C4 counterexample: by the claim, a stream of zero valid frames followed
by trailing garbage that never completes a start marker (here the single
byte `[1]`) should be skipped with a clean end-of-stream report; instead
`deserialise` raises the "Unexpected end of file" framing error, because
`_synchronise` only reports clean end of stream when zero bytes were
read. -/
theorem c4_counterexample :
    deserialiseFn ⟨[1], 0⟩ = .error "Unexpected end of file" := rfl

/-- C4 witness: the garbage byte `[1]` before a concrete serialised block
named "c" (one int8 column "y", two rows) is skipped and the block decodes
intact. -/
theorem c4_witness :
    deserialiseFn ⟨[1] ++ (serialiseMatrix [99] ⟨[⟨[121], 0⟩], none, 2, [5, 6]⟩).1, 0⟩ =
      .ok (some (BLOCK_TYPE_MATRIX, .mat [99] [⟨[121], 0⟩] 2 [5, 6]),
        ⟨[1] ++ (serialiseMatrix [99] ⟨[⟨[121], 0⟩], none, 2, [5, 6]⟩).1,
          ([1] : List Nat).length + 16 +
            (matrixBodyBytes [99] ⟨[⟨[121], 0⟩], none, 2, [5, 6]⟩).length⟩) :=
  c4_resync [1] [99] ⟨[⟨[121], 0⟩], none, 2, [5, 6]⟩ (by decide) (by decide)
    (by
      intro i h1 h2
      have hi : i = 1 := by simp at h2; omega
      subst hi
      decide)
    rfl (by decide) (by decide) (by decide) (by decide) (by decide) (by decide)
    (by decide)

-- ---------------------------------------------------------------------------
-- Declared-length validation
-- ---------------------------------------------------------------------------

/-- C3 (amended): for a framed matrix block whose payload is intact and
well-formed, a declared `block_length` other than the actual byte count
between the length field and the end marker is caught only when the input
stream is seekable: there `deserialise` raises the "Invalid block length"
framing error before any content is returned.  On a non-seekable stream
(a pipe or stdin — the transport the spec describes), `_tell` returns -1,
the `pos0 >= 0 and pos1 >= 0` guard at binnf.py line 323 skips the check
entirely, and the block is returned with no error whatever the declared
length says.  (Even on a seekable stream the check is not airtight: a
truncated payload followed by bytes that happen to spell the end marker
satisfies it and decodes without error — see the counterexample.) -/
theorem c3_length_mismatch (L : Int) (name : List Nat) (m : NpMatrix)
    (rest : List Nat) (hL0 : 0 ≤ L) (hL1 : L < 2147483648)
    (hname : name ≠ []) (hnlen : name.length < 2147483648)
    (hh : headerWf m.header) (hdt : dtypeOk m.header) (hhne : m.header ≠ [])
    (hhlen : m.header.length < 2147483648) (hrows : m.rows < 2147483648)
    (hdata : m.data.length = m.rows * rowWidth m.header)
    (hne : L ≠ ((4 + (matrixBodyBytes name m).length : Nat) : Int)) :
    deserialiseTell true ⟨encodeI32 ((BLOCK_START_SEQUENCE : Nat) : Int) ++
      (encodeI32 L ++ (encodeI32 BLOCK_TYPE_MATRIX ++
        (matrixBodyBytes name m ++
          (encodeI32 ((BLOCK_END_SEQUENCE : Nat) : Int) ++ rest)))), 0⟩ =
      .error "Invalid block length" ∧
    deserialiseTell false ⟨encodeI32 ((BLOCK_START_SEQUENCE : Nat) : Int) ++
      (encodeI32 L ++ (encodeI32 BLOCK_TYPE_MATRIX ++
        (matrixBodyBytes name m ++
          (encodeI32 ((BLOCK_END_SEQUENCE : Nat) : Int) ++ rest)))), 0⟩ =
      .ok (some (BLOCK_TYPE_MATRIX, .mat name m.header m.rows m.data),
        ⟨encodeI32 ((BLOCK_START_SEQUENCE : Nat) : Int) ++
          (encodeI32 L ++ (encodeI32 BLOCK_TYPE_MATRIX ++
            (matrixBodyBytes name m ++
              (encodeI32 ((BLOCK_END_SEQUENCE : Nat) : Int) ++ rest)))),
          0 + 4 + 8 + (matrixBodyBytes name m).length + 4⟩) := by
  obtain ⟨hsync, hdropA⟩ := synchronise_at_marker
    (encodeI32 ((BLOCK_START_SEQUENCE : Nat) : Int) ++
      (encodeI32 L ++ (encodeI32 BLOCK_TYPE_MATRIX ++
        (matrixBodyBytes name m ++
          (encodeI32 ((BLOCK_END_SEQUENCE : Nat) : Int) ++ rest))))) 0 _
    (by rw [List.drop_zero])
  constructor
  · have hmaster := deserialiseTell_matrix_frame true _ 0 (0 + 4) L name m rest
      hsync (by rw [hdropA]; simp [List.append_assoc])
      hL0 hL1 hname hnlen hh hdt hhne hhlen hrows hdata
    rwa [if_pos ⟨rfl, hne⟩] at hmaster
  · have hmaster := deserialiseTell_matrix_frame false _ 0 (0 + 4) L name m rest
      hsync (by rw [hdropA]; simp [List.append_assoc])
      hL0 hL1 hname hnlen hh hdt hhne hhlen hrows hdata
    rwa [if_neg (fun hcon => Bool.false_ne_true hcon.1)] at hmaster

/-- C3 counterexample: a frame whose payload was truncated by the four row
bytes without adjusting `block_length` (declared 31, but only 27 bytes
separate the length field from the frame's end marker).  When the bytes
after the frame happen to start with the end-marker sequence, the parser
reads the frame's own end marker as row data, the length check passes, and
the corrupted content is returned with no framing error — contradicting
the claim that every such mismatch raises a framing error before content
is returned. -/
theorem c3_counterexample :
    deserialiseFn ⟨encodeI32 ((BLOCK_START_SEQUENCE : Nat) : Int) ++
      (encodeI32 31 ++ (encodeI32 BLOCK_TYPE_MATRIX ++
        ((matrixBodyBytes [97, 98] ⟨[⟨[120], 0⟩], none, 4, [1, 2, 3, 4]⟩).take 23 ++
          (encodeI32 ((BLOCK_END_SEQUENCE : Nat) : Int) ++
            encodeI32 ((BLOCK_END_SEQUENCE : Nat) : Int))))), 0⟩ =
      .ok (some (BLOCK_TYPE_MATRIX,
          .mat [97, 98] [⟨[120], 0⟩] 4 [203, 98, 0, 66]),
        ⟨encodeI32 ((BLOCK_START_SEQUENCE : Nat) : Int) ++
          (encodeI32 31 ++ (encodeI32 BLOCK_TYPE_MATRIX ++
            ((matrixBodyBytes [97, 98] ⟨[⟨[120], 0⟩], none, 4, [1, 2, 3, 4]⟩).take 23 ++
              (encodeI32 ((BLOCK_END_SEQUENCE : Nat) : Int) ++
                encodeI32 ((BLOCK_END_SEQUENCE : Nat) : Int))))), 43⟩) := by
  decide

/-- C3 witness: the amended theorem applied to a concrete intact one-column
block with declared length 99 instead of the true 22: the seekable stream
raises, the pipe returns the block unchecked. -/
theorem c3_witness :
    deserialiseTell true ⟨encodeI32 ((BLOCK_START_SEQUENCE : Nat) : Int) ++
      (encodeI32 99 ++ (encodeI32 BLOCK_TYPE_MATRIX ++
        (matrixBodyBytes [100] ⟨[⟨[122], 0⟩], none, 1, [7]⟩ ++
          (encodeI32 ((BLOCK_END_SEQUENCE : Nat) : Int) ++ [])))), 0⟩ =
      .error "Invalid block length" ∧
    deserialiseTell false ⟨encodeI32 ((BLOCK_START_SEQUENCE : Nat) : Int) ++
      (encodeI32 99 ++ (encodeI32 BLOCK_TYPE_MATRIX ++
        (matrixBodyBytes [100] ⟨[⟨[122], 0⟩], none, 1, [7]⟩ ++
          (encodeI32 ((BLOCK_END_SEQUENCE : Nat) : Int) ++ [])))), 0⟩ =
      .ok (some (BLOCK_TYPE_MATRIX, .mat [100] [⟨[122], 0⟩] 1 [7]),
        ⟨encodeI32 ((BLOCK_START_SEQUENCE : Nat) : Int) ++
          (encodeI32 99 ++ (encodeI32 BLOCK_TYPE_MATRIX ++
            (matrixBodyBytes [100] ⟨[⟨[122], 0⟩], none, 1, [7]⟩ ++
              (encodeI32 ((BLOCK_END_SEQUENCE : Nat) : Int) ++ [])))),
          0 + 4 + 8 +
            (matrixBodyBytes [100] ⟨[⟨[122], 0⟩], none, 1, [7]⟩).length + 4⟩) :=
  c3_length_mismatch 99 [100] ⟨[⟨[122], 0⟩], none, 1, [7]⟩ []
    (by decide) (by decide) (by decide) (by decide) (by decide) (by decide)
    (by decide) (by decide) (by decide) (by decide) (by decide)

-- ---------------------------------------------------------------------------
-- Column-count check in serialise_matrix
-- ---------------------------------------------------------------------------

/-- C6 (amended): when the column count implied by the matrix shape differs
from the header's column count, `serialise_matrix` raises the encoding
error before writing the row count, the row data or the end marker — but
only after the frame preamble (start marker, declared length, type tag,
name and data header) has already been written to the stream, so a partial
frame IS emitted on mismatch. -/
theorem c6_mismatch_after_preamble (name : List Nat) (m : NpMatrix)
    (hmis : npCols m ≠ m.header.length) :
    serialiseMatrix name m =
      (encodeI32 ((BLOCK_START_SEQUENCE : Nat) : Int) ++
        encodeI32 ((matrixBlockLen name m : Nat) : Int) ++
        encodeI32 BLOCK_TYPE_MATRIX ++ writeStr name ++ headerBytes m.header,
        some "Disecrepancy between matrix number of columns and header") := by
  unfold serialiseMatrix
  rw [if_pos hmis]

/-- C6 counterexample: a two-dimensional `(1, 2)` array with a one-column
dtype trips the mismatch check, and the error is raised only after a
nonempty byte prefix of the frame has been written — contradicting the
claim that the error precedes any byte being written and that no partial
frame is emitted. -/
theorem c6_counterexample :
    (serialiseMatrix [97] ⟨[⟨[120], 4⟩], some 2, 1, [0, 0, 0, 0]⟩).2 =
      some "Disecrepancy between matrix number of columns and header" ∧
    (serialiseMatrix [97] ⟨[⟨[120], 4⟩], some 2, 1, [0, 0, 0, 0]⟩).1 ≠ [] :=
  ⟨rfl, by decide⟩

/-- C6 witness: the amended theorem evaluated on the concrete mismatching
matrix of the counterexample's shape, with a different name. -/
theorem c6_witness :
    serialiseMatrix [98] ⟨[⟨[119], 4⟩], some 3, 1, [0, 0, 0, 0]⟩ =
      (encodeI32 ((BLOCK_START_SEQUENCE : Nat) : Int) ++
        encodeI32 ((matrixBlockLen [98] ⟨[⟨[119], 4⟩], some 3, 1, [0, 0, 0, 0]⟩ : Nat) : Int) ++
        encodeI32 BLOCK_TYPE_MATRIX ++ writeStr [98] ++
        headerBytes [⟨[119], 4⟩],
        some "Disecrepancy between matrix number of columns and header") :=
  c6_mismatch_after_preamble [98] ⟨[⟨[119], 4⟩], some 3, 1, [0, 0, 0, 0]⟩
    (by decide)

-- ---------------------------------------------------------------------------
-- Empty strings break deserialisation
-- ---------------------------------------------------------------------------

theorem readStr_empty (full : List Nat) (pos : Nat) (rest : List Nat)
    (h : full.drop pos = writeStr [] ++ rest) :
    readStr ⟨full, pos⟩ = .error "Unexpected end of file" := by
  rw [writeStr] at h
  simp only [List.length_nil, Nat.cast_zero, List.append_nil] at h
  obtain ⟨hi, hd⟩ := readInt_spec full pos 0 rest (by simpa using h)
    (le_refl 0) (by norm_num)
  unfold readStr
  rw [hi, ebind_ok]
  simp [fdRead]

theorem readHeaderN_empty_name (pre : List Column) (t : Int) (post : List Column) :
    ∀ (full : List Nat) (pos : Nat) (rest : List Nat),
    full.drop pos = (pre ++ ⟨[], t⟩ :: post).flatMap columnBytes ++ rest →
    headerWf pre →
    readHeaderN (pre ++ ⟨[], t⟩ :: post).length ⟨full, pos⟩ =
      .error "Unexpected end of file" := by
  induction pre with
  | nil =>
    intro full pos rest h _
    rw [List.nil_append] at h ⊢
    rw [List.flatMap_cons, columnBytes] at h
    simp only [List.append_assoc] at h
    have her := readStr_empty full pos _ h
    show readHeaderN (post.length + 1) ⟨full, pos⟩ = _
    unfold readHeaderN
    rw [her, ebind_error]
  | cons c cs ih =>
    intro full pos rest h hwf
    rw [List.cons_append, List.flatMap_cons, columnBytes] at h
    simp only [List.append_assoc] at h
    obtain ⟨hcn, hcl, hct⟩ := hwf c (by simp)
    obtain ⟨hs, hd1⟩ := readStr_spec full pos c.name _ h hcn hcl
    obtain ⟨hi, hd2⟩ := readInt_spec full (pos + 4 + c.name.length) c.type _ hd1
      hct.1 (by obtain ⟨h1, h2⟩ := hct; omega)
    show readHeaderN ((cs ++ ⟨[], t⟩ :: post).length + 1) ⟨full, pos⟩ = _
    unfold readHeaderN
    rw [hs, ebind_ok, hi, ebind_ok,
      ih full (pos + 4 + c.name.length + 4) rest hd2
        (fun x hx => hwf x (by simp [hx])), ebind_error]

/-- C10: every block containing a zero-length string field serialises
without error, but deserialising the resulting bytes raises
"Unexpected end of file" when the empty string is read, because `_read_str`
treats a successful zero-byte read as end of stream.  The four parts cover
an empty matrix name, an empty column name, an empty log module and an
empty log message. -/
theorem c10_empty_string_fields :
    (∀ (m : NpMatrix), m.shape2 = none →
      (serialiseMatrix [] m).2 = none ∧
      deserialiseFn ⟨(serialiseMatrix [] m).1, 0⟩ =
        .error "Unexpected end of file") ∧
    (∀ (name : List Nat) (m : NpMatrix) (pre post : List Column) (t : Int),
      m.shape2 = none → name ≠ [] → name.length < 2147483648 →
      m.header = pre ++ ⟨[], t⟩ :: post → headerWf pre →
      m.header.length < 2147483648 →
      (serialiseMatrix name m).2 = none ∧
      deserialiseFn ⟨(serialiseMatrix name m).1, 0⟩ =
        .error "Unexpected end of file") ∧
    (∀ (timeBytes : List Nat) (sev : Int) (msg : List Nat),
      timeBytes.length = 8 →
      deserialiseFn ⟨serialiseLog timeBytes sev [] msg, 0⟩ =
        .error "Unexpected end of file") ∧
    (∀ (timeBytes : List Nat) (sev : Int) (module : List Nat),
      timeBytes.length = 8 → module ≠ [] → module.length < 2147483648 →
      deserialiseFn ⟨serialiseLog timeBytes sev module [], 0⟩ =
        .error "Unexpected end of file") := by
  refine ⟨?_, ?_, ?_, ?_⟩
  · intro m h2
    have hser := serialiseMatrix_1d [] m h2
    refine ⟨by rw [hser], ?_⟩
    obtain ⟨hsync, hdropA⟩ := synchronise_at_marker (serialiseMatrix [] m).1 0 _
      (by rw [List.drop_zero, hser])
    rw [matrixBodyBytes] at hdropA
    simp only [List.append_assoc] at hdropA
    obtain ⟨hiL, hd1⟩ := readInt_any_spec (serialiseMatrix [] m).1 (0 + 4) _ _
      hdropA
    obtain ⟨hiT, hd2⟩ := readInt_spec (serialiseMatrix [] m).1 (0 + 4 + 4)
      BLOCK_TYPE_MATRIX _ hd1 (by norm_num [BLOCK_TYPE_MATRIX])
      (by norm_num [BLOCK_TYPE_MATRIX])
    have hmat : deserialiseMatrixFn ⟨(serialiseMatrix [] m).1, 0 + 4 + 4 + 4⟩ =
        .error "Unexpected end of file" := by
      unfold deserialiseMatrixFn
      rw [readStr_empty _ _ _ hd2, ebind_error]
    unfold deserialiseFn
    rw [hsync]
    dsimp only
    rw [hiL, ebind_ok, hiT, ebind_ok]
    rw [show readBlockContent BLOCK_TYPE_MATRIX
        ⟨(serialiseMatrix [] m).1, 0 + 4 + 4 + 4⟩ =
      deserialiseMatrixFn ⟨(serialiseMatrix [] m).1, 0 + 4 + 4 + 4⟩ from
      by rw [readBlockContent, if_pos rfl]]
    rw [hmat, ebind_error]
  · intro name m pre post t h2 hname hnlen hheader hwfpre hhlen
    have hser := serialiseMatrix_1d name m h2
    refine ⟨by rw [hser], ?_⟩
    obtain ⟨hsync, hdropA⟩ := synchronise_at_marker (serialiseMatrix name m).1 0 _
      (by rw [List.drop_zero, hser])
    rw [matrixBodyBytes, headerBytes] at hdropA
    simp only [List.append_assoc] at hdropA
    obtain ⟨hiL, hd1⟩ := readInt_any_spec (serialiseMatrix name m).1 (0 + 4) _ _
      hdropA
    obtain ⟨hiT, hd2⟩ := readInt_spec (serialiseMatrix name m).1 (0 + 4 + 4)
      BLOCK_TYPE_MATRIX _ hd1 (by norm_num [BLOCK_TYPE_MATRIX])
      (by norm_num [BLOCK_TYPE_MATRIX])
    obtain ⟨hs, hd3⟩ := readStr_spec (serialiseMatrix name m).1 (0 + 4 + 4 + 4)
      name _ hd2 hname hnlen
    obtain ⟨hiH, hd4⟩ := readInt_spec (serialiseMatrix name m).1
      (0 + 4 + 4 + 4 + 4 + name.length) (m.header.length : Int) _ hd3
      (by omega) (by exact_mod_cast hhlen)
    have hmat : deserialiseMatrixFn ⟨(serialiseMatrix name m).1, 0 + 4 + 4 + 4⟩ =
        .error "Unexpected end of file" := by
      unfold deserialiseMatrixFn
      rw [hs, ebind_ok, hiH, ebind_ok, Int.toNat_natCast]
      rw [show m.header.length = (pre ++ ⟨[], t⟩ :: post).length from
        by rw [hheader]]
      rw [readHeaderN_empty_name pre t post (serialiseMatrix name m).1
        (0 + 4 + 4 + 4 + 4 + name.length + 4) _
        (by rw [← hheader]; exact hd4) hwfpre, ebind_error]
    unfold deserialiseFn
    rw [hsync]
    dsimp only
    rw [hiL, ebind_ok, hiT, ebind_ok]
    rw [show readBlockContent BLOCK_TYPE_MATRIX
        ⟨(serialiseMatrix name m).1, 0 + 4 + 4 + 4⟩ =
      deserialiseMatrixFn ⟨(serialiseMatrix name m).1, 0 + 4 + 4 + 4⟩ from
      by rw [readBlockContent, if_pos rfl]]
    rw [hmat, ebind_error]
  · intro timeBytes sev msg htlen
    obtain ⟨hsync, hdropA⟩ := synchronise_at_marker
      (serialiseLog timeBytes sev [] msg) 0
      (encodeI32 ((logBlockLen [] msg : Nat) : Int) ++
        (encodeI32 BLOCK_TYPE_LOG ++ (timeBytes ++ (encodeI32 sev ++
          (writeStr [] ++ (writeStr msg ++
            encodeI32 ((BLOCK_END_SEQUENCE : Nat) : Int)))))))
      (by rw [List.drop_zero]; simp [serialiseLog, List.append_assoc])
    obtain ⟨hiL, hd1⟩ := readInt_any_spec (serialiseLog timeBytes sev [] msg)
      (0 + 4) _ _ hdropA
    obtain ⟨hiT, hd2⟩ := readInt_spec (serialiseLog timeBytes sev [] msg)
      (0 + 4 + 4) BLOCK_TYPE_LOG _ hd1 (by norm_num [BLOCK_TYPE_LOG])
      (by norm_num [BLOCK_TYPE_LOG])
    obtain ⟨hdbl, hd3⟩ := readDouble_spec (serialiseLog timeBytes sev [] msg)
      (0 + 4 + 4 + 4) timeBytes _ hd2 htlen
    obtain ⟨hiS, hd4⟩ := readInt_any_spec (serialiseLog timeBytes sev [] msg)
      (0 + 4 + 4 + 4 + 8) sev _ hd3
    have hlog : deserialiseLogFn ⟨serialiseLog timeBytes sev [] msg,
        0 + 4 + 4 + 4⟩ = .error "Unexpected end of file" := by
      unfold deserialiseLogFn
      rw [hdbl, ebind_ok, hiS, ebind_ok, readStr_empty _ _ _ hd4, ebind_error]
    unfold deserialiseFn
    rw [hsync]
    dsimp only
    rw [hiL, ebind_ok, hiT, ebind_ok]
    rw [show readBlockContent BLOCK_TYPE_LOG
        ⟨serialiseLog timeBytes sev [] msg, 0 + 4 + 4 + 4⟩ =
      deserialiseLogFn ⟨serialiseLog timeBytes sev [] msg, 0 + 4 + 4 + 4⟩ from
      by rw [readBlockContent, if_neg (by decide), if_pos rfl]]
    rw [hlog, ebind_error]
  · intro timeBytes sev module htlen hmne hmlen
    obtain ⟨hsync, hdropA⟩ := synchronise_at_marker
      (serialiseLog timeBytes sev module []) 0
      (encodeI32 ((logBlockLen module [] : Nat) : Int) ++
        (encodeI32 BLOCK_TYPE_LOG ++ (timeBytes ++ (encodeI32 sev ++
          (writeStr module ++ (writeStr [] ++
            encodeI32 ((BLOCK_END_SEQUENCE : Nat) : Int)))))))
      (by rw [List.drop_zero]; simp [serialiseLog, List.append_assoc])
    obtain ⟨hiL, hd1⟩ := readInt_any_spec (serialiseLog timeBytes sev module [])
      (0 + 4) _ _ hdropA
    obtain ⟨hiT, hd2⟩ := readInt_spec (serialiseLog timeBytes sev module [])
      (0 + 4 + 4) BLOCK_TYPE_LOG _ hd1 (by norm_num [BLOCK_TYPE_LOG])
      (by norm_num [BLOCK_TYPE_LOG])
    obtain ⟨hdbl, hd3⟩ := readDouble_spec (serialiseLog timeBytes sev module [])
      (0 + 4 + 4 + 4) timeBytes _ hd2 htlen
    obtain ⟨hiS, hd4⟩ := readInt_any_spec (serialiseLog timeBytes sev module [])
      (0 + 4 + 4 + 4 + 8) sev _ hd3
    obtain ⟨hmod, hd5⟩ := readStr_spec (serialiseLog timeBytes sev module [])
      (0 + 4 + 4 + 4 + 8 + 4) module _ hd4 hmne hmlen
    have hlog : deserialiseLogFn ⟨serialiseLog timeBytes sev module [],
        0 + 4 + 4 + 4⟩ = .error "Unexpected end of file" := by
      unfold deserialiseLogFn
      rw [hdbl, ebind_ok, hiS, ebind_ok, hmod, ebind_ok,
        readStr_empty _ _ _ hd5, ebind_error]
    unfold deserialiseFn
    rw [hsync]
    dsimp only
    rw [hiL, ebind_ok, hiT, ebind_ok]
    rw [show readBlockContent BLOCK_TYPE_LOG
        ⟨serialiseLog timeBytes sev module [], 0 + 4 + 4 + 4⟩ =
      deserialiseLogFn ⟨serialiseLog timeBytes sev module [], 0 + 4 + 4 + 4⟩ from
      by rw [readBlockContent, if_neg (by decide), if_pos rfl]]
    rw [hlog, ebind_error]

/-- C10 witness: the four cases evaluated on concrete blocks — an empty
matrix name, an empty column name, an empty log module and an empty log
message. -/
theorem c10_witness :
    ((serialiseMatrix [] ⟨[⟨[120], 4⟩], none, 0, []⟩).2 = none ∧
      deserialiseFn ⟨(serialiseMatrix [] ⟨[⟨[120], 4⟩], none, 0, []⟩).1, 0⟩ =
        .error "Unexpected end of file") ∧
    ((serialiseMatrix [107] ⟨[⟨[], 5⟩], none, 0, []⟩).2 = none ∧
      deserialiseFn ⟨(serialiseMatrix [107] ⟨[⟨[], 5⟩], none, 0, []⟩).1, 0⟩ =
        .error "Unexpected end of file") ∧
    deserialiseFn ⟨serialiseLog [0, 0, 0, 0, 0, 0, 0, 0] 20 [] [109], 0⟩ =
      .error "Unexpected end of file" ∧
    deserialiseFn ⟨serialiseLog [0, 0, 0, 0, 0, 0, 0, 0] 20 [108] [], 0⟩ =
      .error "Unexpected end of file" :=
  ⟨c10_empty_string_fields.1 ⟨[⟨[120], 4⟩], none, 0, []⟩ rfl,
   c10_empty_string_fields.2.1 [107] ⟨[⟨[], 5⟩], none, 0, []⟩ [] [] 5 rfl
     (by decide) (by decide) rfl (by decide) (by decide),
   c10_empty_string_fields.2.2.1 [0, 0, 0, 0, 0, 0, 0, 0] 20 [109] rfl,
   c10_empty_string_fields.2.2.2 [0, 0, 0, 0, 0, 0, 0, 0] 20 [108] rfl
     (by decide) (by decide)⟩

-- ---------------------------------------------------------------------------
-- Network assembler: target / spike_times pairing
-- ---------------------------------------------------------------------------

/-- C2: in `read_network`, a `target` block with exactly one row sets the
pending target to that row's (pid, nid) (any other row count raises
"Target matrix must have exactly one element"); a `spike_times` block with
a pending target emits `{pid, nid, times}` and clears the pending target,
and with no pending target raises "Target neuron was not set"; and the
concrete sequence `[populations, target(0,0), spike_times([1,2,3]),
target(0,1), spike_times([4,5])]` yields exactly the two spike-time entries
in order. -/
theorem c2_assembler_pairing :
    (∀ (net : Network) (tgt : Option (Int × Int)) (m : AMatrix),
      "pid" ∈ m.cols → "nid" ∈ m.cols → m.rows.length = 1 →
      readNetworkStep net tgt "target" m =
        .ok (net, some (aGet m 0 "pid", aGet m 0 "nid"))) ∧
    (∀ (net : Network) (tgt : Option (Int × Int)) (m : AMatrix),
      "pid" ∈ m.cols → "nid" ∈ m.cols → m.rows.length ≠ 1 →
      readNetworkStep net tgt "target" m =
        .error "Target matrix must have exactly one element") ∧
    (∀ (net : Network) (m : AMatrix) (p n : Int), "times" ∈ m.cols →
      readNetworkStep net (some (p, n)) "spike_times" m =
        .ok ({ net with spike_times := net.spike_times ++ [⟨p, n, m⟩] }, none)) ∧
    (∀ (net : Network) (m : AMatrix), "times" ∈ m.cols →
      readNetworkStep net none "spike_times" m =
        .error "Target neuron was not set") ∧
    readNetworkBlocks
      [("populations", ⟨["count", "type"], [[5, 0]]⟩),
       ("target", ⟨["pid", "nid"], [[0, 0]]⟩),
       ("spike_times", ⟨["times"], [[1], [2], [3]]⟩),
       ("target", ⟨["pid", "nid"], [[0, 1]]⟩),
       ("spike_times", ⟨["times"], [[4], [5]]⟩)] =
      .ok ⟨[], [⟨0, 0, ⟨["times"], [[1], [2], [3]]⟩⟩,
                ⟨0, 1, ⟨["times"], [[4], [5]]⟩⟩], [], [],
        some ⟨["count", "type"], [[5, 0]]⟩, none, none⟩ := by
  have hvt : ∀ (m : AMatrix), "pid" ∈ m.cols → "nid" ∈ m.cols →
      validateMatrix "target" m = .ok () := by
    intro m h1 h2
    have : validateMatrix "target" m =
        checkFields "target" m.cols ["pid", "nid"] := rfl
    rw [this]
    simp only [checkFields, if_pos h1, if_pos h2]
  have hvs : ∀ (m : AMatrix), "times" ∈ m.cols →
      validateMatrix "spike_times" m = .ok () := by
    intro m h1
    have : validateMatrix "spike_times" m =
        checkFields "spike_times" m.cols ["times"] := rfl
    rw [this]
    simp only [checkFields, if_pos h1]
  refine ⟨?_, ?_, ?_, ?_, by decide⟩
  · intro net tgt m h1 h2 hlen
    unfold readNetworkStep
    rw [hvt m h1 h2]
    simp only [reduceIte, String.reduceEq]
    rw [if_neg (not_not_intro hlen)]
  · intro net tgt m h1 h2 hlen
    unfold readNetworkStep
    rw [hvt m h1 h2]
    simp only [reduceIte, String.reduceEq]
    rw [if_pos hlen]
  · intro net m p n h1
    unfold readNetworkStep
    rw [hvs m h1]
    simp only [reduceIte, String.reduceEq]
  · intro net m h1
    unfold readNetworkStep
    rw [hvs m h1]
    simp only [reduceIte, String.reduceEq]

/-- C2 witness: the four pairing rules evaluated at concrete blocks. -/
theorem c2_witness :
    readNetworkStep network0 none "target" ⟨["pid", "nid"], [[3, 7]]⟩ =
      .ok (network0, some (3, 7)) ∧
    readNetworkStep network0 none "target" ⟨["pid", "nid"], [[3, 7], [1, 1]]⟩ =
      .error "Target matrix must have exactly one element" ∧
    readNetworkStep network0 (some (2, 5)) "spike_times" ⟨["times"], [[9]]⟩ =
      .ok ({ network0 with
        spike_times := network0.spike_times ++ [⟨2, 5, ⟨["times"], [[9]]⟩⟩] },
        none) ∧
    readNetworkStep network0 none "spike_times" ⟨["times"], [[9]]⟩ =
      .error "Target neuron was not set" :=
  ⟨c2_assembler_pairing.1 network0 none ⟨["pid", "nid"], [[3, 7]]⟩
     (by decide) (by decide) (by decide),
   c2_assembler_pairing.2.1 network0 none ⟨["pid", "nid"], [[3, 7], [1, 1]]⟩
     (by decide) (by decide) (by decide),
   c2_assembler_pairing.2.2.1 network0 ⟨["times"], [[9]]⟩ 2 5 (by decide),
   c2_assembler_pairing.2.2.2.1 network0 ⟨["times"], [[9]]⟩ (by decide)⟩

-- ---------------------------------------------------------------------------
-- Network assembler: singleton blocks
-- ---------------------------------------------------------------------------

theorem readNetworkStep_effects (net : Network) (tgt : Option (Int × Int))
    (name : String) (m : AMatrix) (net1 : Network) (tgt1 : Option (Int × Int))
    (h : readNetworkStep net tgt name m = .ok (net1, tgt1)) :
    ((name = "populations" →
        net.populations = none ∧ net1.populations = some m) ∧
      (name ≠ "populations" → net1.populations = net.populations)) ∧
    ((name = "list_connection_header" →
        net.list_connection_header = none ∧
          net1.list_connection_header = some m) ∧
      (name ≠ "list_connection_header" →
        net1.list_connection_header = net.list_connection_header)) ∧
    ((name = "group_connections" →
        net.group_connections = none ∧ net1.group_connections = some m) ∧
      (name ≠ "group_connections" →
        net1.group_connections = net.group_connections)) := by
  unfold readNetworkStep at h
  repeat' split at h
  all_goals simp_all
  all_goals (obtain ⟨h1, h2⟩ := h; subst h1; simp)

theorem readNetworkGo_count_le (K : String) (f : Network → Option AMatrix)
    (heff : ∀ (net : Network) (tgt : Option (Int × Int)) (name : String)
      (m : AMatrix) (net1 : Network) (tgt1 : Option (Int × Int)),
      readNetworkStep net tgt name m = .ok (net1, tgt1) →
      (name = K → f net = none ∧ f net1 = some m) ∧
      (name ≠ K → f net1 = f net)) :
    ∀ (bs : List (String × AMatrix)) (net : Network) (tgt : Option (Int × Int))
      (net' : Network), readNetworkGo net tgt bs = .ok net' →
      bs.countP (fun b => b.1 = K) ≤ (if (f net).isSome then 0 else 1) := by
  intro bs
  induction bs with
  | nil => intro net tgt net' h; simp
  | cons b rest ih =>
    obtain ⟨name, m⟩ := b
    intro net tgt net' h
    rw [readNetworkGo] at h
    cases hstep : readNetworkStep net tgt name m with
    | error e => rw [hstep] at h; exact Except.noConfusion h
    | ok p =>
      obtain ⟨net1, tgt1⟩ := p
      rw [hstep] at h
      have heff1 := heff net tgt name m net1 tgt1 hstep
      have hihv := ih net1 tgt1 net' h
      rw [List.countP_cons]
      by_cases hk : name = K
      · obtain ⟨hnone, hsome⟩ := heff1.1 hk
        rw [hsome] at hihv
        simp at hihv
        rw [hnone]
        simp [hk]
        exact hihv
      · have hpres := heff1.2 hk
        rw [hpres] at hihv
        simp [hk]
        omega

theorem readNetworkGo_mono (K : String) (f : Network → Option AMatrix)
    (heff : ∀ (net : Network) (tgt : Option (Int × Int)) (name : String)
      (m : AMatrix) (net1 : Network) (tgt1 : Option (Int × Int)),
      readNetworkStep net tgt name m = .ok (net1, tgt1) →
      (name = K → f net = none ∧ f net1 = some m) ∧
      (name ≠ K → f net1 = f net)) :
    ∀ (bs : List (String × AMatrix)) (net : Network) (tgt : Option (Int × Int))
      (net' : Network), readNetworkGo net tgt bs = .ok net' →
      (f net).isSome → (f net').isSome := by
  intro bs
  induction bs with
  | nil =>
    intro net tgt net' h hs
    rw [readNetworkGo] at h
    injection h with h1
    rw [← h1]
    exact hs
  | cons b rest ih =>
    obtain ⟨name, m⟩ := b
    intro net tgt net' h hs
    rw [readNetworkGo] at h
    cases hstep : readNetworkStep net tgt name m with
    | error e => rw [hstep] at h; exact Except.noConfusion h
    | ok p =>
      obtain ⟨net1, tgt1⟩ := p
      rw [hstep] at h
      have heff1 := heff net tgt name m net1 tgt1 hstep
      by_cases hk : name = K
      · obtain ⟨hnone, _⟩ := heff1.1 hk
        rw [hnone] at hs
        simp at hs
      · have hpres := heff1.2 hk
        exact ih net1 tgt1 net' h (by rw [hpres]; exact hs)

theorem readNetworkGo_stores (K : String) (f : Network → Option AMatrix)
    (heff : ∀ (net : Network) (tgt : Option (Int × Int)) (name : String)
      (m : AMatrix) (net1 : Network) (tgt1 : Option (Int × Int)),
      readNetworkStep net tgt name m = .ok (net1, tgt1) →
      (name = K → f net = none ∧ f net1 = some m) ∧
      (name ≠ K → f net1 = f net)) :
    ∀ (bs : List (String × AMatrix)) (net : Network) (tgt : Option (Int × Int))
      (net' : Network), readNetworkGo net tgt bs = .ok net' →
      (∃ b ∈ bs, b.1 = K) → (f net').isSome := by
  intro bs
  induction bs with
  | nil =>
    intro net tgt net' _ hex
    simp at hex
  | cons b rest ih =>
    obtain ⟨name, m⟩ := b
    intro net tgt net' h hex
    rw [readNetworkGo] at h
    cases hstep : readNetworkStep net tgt name m with
    | error e => rw [hstep] at h; exact Except.noConfusion h
    | ok p =>
      obtain ⟨net1, tgt1⟩ := p
      rw [hstep] at h
      have heff1 := heff net tgt name m net1 tgt1 hstep
      obtain ⟨bb, hbb, hbk⟩ := hex
      rcases List.mem_cons.mp hbb with hhead | htail
      · have hk : name = K := by rw [hhead] at hbk; exact hbk
        obtain ⟨_, hsome⟩ := heff1.1 hk
        exact readNetworkGo_mono K f heff rest net1 tgt1 net' h
          (by rw [hsome]; simp)
      · exact ih net1 tgt1 net' h ⟨bb, htail, hbk⟩

/-- C7: `read_network` never completes on a block stream holding two
`populations` blocks (likewise two `list_connection_header` or two
`group_connections` blocks): a completed run contains each singleton name
at most once and, when the name occurred, the matrix is stored in the
descriptor.  On an otherwise valid stream the second occurrence raises
exactly the duplicate-singleton error, and a single occurrence is stored,
as the concrete runs show. -/
theorem c7_duplicate_singletons :
    (∀ (bs : List (String × AMatrix)) (net' : Network),
      readNetworkBlocks bs = .ok net' →
      (bs.countP (fun b => b.1 = "populations") ≤ 1 ∧
        ((∃ b ∈ bs, b.1 = "populations") → net'.populations.isSome)) ∧
      (bs.countP (fun b => b.1 = "list_connection_header") ≤ 1 ∧
        ((∃ b ∈ bs, b.1 = "list_connection_header") →
          net'.list_connection_header.isSome)) ∧
      (bs.countP (fun b => b.1 = "group_connections") ≤ 1 ∧
        ((∃ b ∈ bs, b.1 = "group_connections") →
          net'.group_connections.isSome))) ∧
    readNetworkBlocks
      [("populations", ⟨["count", "type"], [[2, 0]]⟩),
       ("populations", ⟨["count", "type"], [[2, 0]]⟩)] =
      .error "Only a single \"populations\" instance is supported" ∧
    readNetworkBlocks
      [("list_connection_header", ⟨["pid_src", "pid_tar", "inh", "file"],
          [[0, 1, 0, 0]]⟩),
       ("list_connection_header", ⟨["pid_src", "pid_tar", "inh", "file"],
          [[0, 1, 0, 0]]⟩)] =
      .error "Only a single \"list_connection_header\" instance is supported" ∧
    readNetworkBlocks
      [("group_connections", ⟨["pid_src", "nid_src_start", "nid_src_end",
          "pid_tar", "nid_tar_start", "nid_tar_end", "connector_id", "weight",
          "delay", "parameter"], [[0, 0, 2, 1, 0, 2, 0, 1, 1, 0]]⟩),
       ("group_connections", ⟨["pid_src", "nid_src_start", "nid_src_end",
          "pid_tar", "nid_tar_start", "nid_tar_end", "connector_id", "weight",
          "delay", "parameter"], [[0, 0, 2, 1, 0, 2, 0, 1, 1, 0]]⟩)] =
      .error "Only a single \"group_connections\" instance is supported" ∧
    readNetworkBlocks [("populations", ⟨["count", "type"], [[2, 0]]⟩)] =
      .ok ⟨[], [], [], [], some ⟨["count", "type"], [[2, 0]]⟩, none, none⟩ := by
  refine ⟨?_, by decide, by decide, by decide, by decide⟩
  intro bs net' h
  unfold readNetworkBlocks at h
  have heffp := fun net tgt name m net1 tgt1 hs =>
    (readNetworkStep_effects net tgt name m net1 tgt1 hs).1
  have heffl := fun net tgt name m net1 tgt1 hs =>
    (readNetworkStep_effects net tgt name m net1 tgt1 hs).2.1
  have heffg := fun net tgt name m net1 tgt1 hs =>
    (readNetworkStep_effects net tgt name m net1 tgt1 hs).2.2
  refine ⟨⟨?_, ?_⟩, ⟨?_, ?_⟩, ⟨?_, ?_⟩⟩
  · have := readNetworkGo_count_le "populations" Network.populations heffp bs
      network0 none net' h
    simpa [network0] using this
  · exact readNetworkGo_stores "populations" Network.populations heffp bs
      network0 none net' h
  · have := readNetworkGo_count_le "list_connection_header"
      Network.list_connection_header heffl bs network0 none net' h
    simpa [network0] using this
  · exact readNetworkGo_stores "list_connection_header"
      Network.list_connection_header heffl bs network0 none net' h
  · have := readNetworkGo_count_le "group_connections"
      Network.group_connections heffg bs network0 none net' h
    simpa [network0] using this
  · exact readNetworkGo_stores "group_connections"
      Network.group_connections heffg bs network0 none net' h

/-- C7 witness: the invariant applied to the concrete one-populations run
(one parameters block alongside), discharging the success hypothesis. -/
theorem c7_witness :
    (([("populations", (⟨["count", "type"], [[3, 1]]⟩ : AMatrix)),
        ("parameters", ⟨["pid", "nid"], [[0, 0]]⟩)] :
        List (String × AMatrix)).countP
          (fun b => b.1 = "populations") ≤ 1 ∧
      ((∃ b ∈ ([("populations", (⟨["count", "type"], [[3, 1]]⟩ : AMatrix)),
          ("parameters", ⟨["pid", "nid"], [[0, 0]]⟩)] :
          List (String × AMatrix)), b.1 = "populations") →
        (Network.mk [⟨["pid", "nid"], [[0, 0]]⟩] [] [] []
          (some ⟨["count", "type"], [[3, 1]]⟩) none none).populations.isSome)) ∧
    (([("populations", (⟨["count", "type"], [[3, 1]]⟩ : AMatrix)),
        ("parameters", ⟨["pid", "nid"], [[0, 0]]⟩)] :
        List (String × AMatrix)).countP
          (fun b => b.1 = "list_connection_header") ≤ 1 ∧
      ((∃ b ∈ ([("populations", (⟨["count", "type"], [[3, 1]]⟩ : AMatrix)),
          ("parameters", ⟨["pid", "nid"], [[0, 0]]⟩)] :
          List (String × AMatrix)), b.1 = "list_connection_header") →
        (Network.mk [⟨["pid", "nid"], [[0, 0]]⟩] [] [] []
          (some ⟨["count", "type"], [[3, 1]]⟩) none none).list_connection_header.isSome)) ∧
    (([("populations", (⟨["count", "type"], [[3, 1]]⟩ : AMatrix)),
        ("parameters", ⟨["pid", "nid"], [[0, 0]]⟩)] :
        List (String × AMatrix)).countP
          (fun b => b.1 = "group_connections") ≤ 1 ∧
      ((∃ b ∈ ([("populations", (⟨["count", "type"], [[3, 1]]⟩ : AMatrix)),
          ("parameters", ⟨["pid", "nid"], [[0, 0]]⟩)] :
          List (String × AMatrix)), b.1 = "group_connections") →
        (Network.mk [⟨["pid", "nid"], [[0, 0]]⟩] [] [] []
          (some ⟨["count", "type"], [[3, 1]]⟩) none none).group_connections.isSome)) :=
  c7_duplicate_singletons.1
    [("populations", ⟨["count", "type"], [[3, 1]]⟩),
     ("parameters", ⟨["pid", "nid"], [[0, 0]]⟩)]
    (Network.mk [⟨["pid", "nid"], [[0, 0]]⟩] [] [] []
      (some ⟨["count", "type"], [[3, 1]]⟩) none none)
    (by decide)

-- ---------------------------------------------------------------------------
-- Mandatory-field validation
-- ---------------------------------------------------------------------------

theorem checkFields_missing (name : String) (cols : List String) :
    ∀ (fields : List String), (∃ f ∈ fields, f ∉ cols) →
    checkFields name cols fields =
      .error ("Expected mandatory header field \"" ++ name ++ "\"") := by
  intro fields
  induction fields with
  | nil => intro hex; simp at hex
  | cons f rest ih =>
    intro hex
    by_cases hf : f ∈ cols
    · simp only [checkFields]
      rw [if_pos hf]
      apply ih
      obtain ⟨g, hg, hgn⟩ := hex
      rcases List.mem_cons.mp hg with hgf | hgr
      · exact absurd hf (hgf ▸ hgn)
      · exact ⟨g, hgr, hgn⟩
    · simp only [checkFields]
      rw [if_neg hf]

/-- C8 (amended): when the first block's name has an `EXPECTED_FIELDS`
entry and its header lacks one of the mandatory column names, `read_network`
raises a fatal error — but the error message embeds the BLOCK name in the
field-expectation template (`Expected mandatory header field "<block>"`);
the missing field's name does not appear in the message (see the
counterexample), contrary to the claim. -/
theorem c8_missing_field (name : String) (fields : List String) (m : AMatrix)
    (rest : List (String × AMatrix))
    (hfind : EXPECTED_FIELDS.find? (fun p => p.1 = name) = some (name, fields))
    (hmiss : ∃ f ∈ fields, f ∉ m.cols) :
    readNetworkBlocks ((name, m) :: rest) =
      .error ("Expected mandatory header field \"" ++ name ++ "\"") := by
  have hval : validateMatrix name m =
      .error ("Expected mandatory header field \"" ++ name ++ "\"") := by
    unfold validateMatrix
    rw [hfind]
    exact checkFields_missing name m.cols fields hmiss
  have hstep : readNetworkStep network0 none name m =
      .error ("Expected mandatory header field \"" ++ name ++ "\"") := by
    unfold readNetworkStep
    rw [hval]
  unfold readNetworkBlocks
  rw [readNetworkGo, hstep]

/-- C8 counterexample: a `populations` block missing its mandatory `type`
column raises the error, but the message is
`Expected mandatory header field "populations"` — it names only the block
(mislabelled as a header field); the missing field name `type` does not
occur in it, so the message does not "name both the missing field and the
block" as claimed. -/
theorem c8_counterexample :
    readNetworkBlocks [("populations", ⟨["count"], [[5]]⟩)] =
      .error "Expected mandatory header field \"populations\"" ∧
    ¬ List.IsInfix ("type".toList)
      ("Expected mandatory header field \"populations\"".toList) :=
  ⟨by decide, by decide⟩

/-- C8 witness: the amended theorem applied to a `list_connection` block
missing its mandatory `weight` column. -/
theorem c8_witness :
    readNetworkBlocks
      [("list_connection", ⟨["nid_src", "nid_tar", "delay"],
        [[0, 1, 1]]⟩)] =
      .error "Expected mandatory header field \"list_connection\"" :=
  c8_missing_field "list_connection"
    ["nid_src", "nid_tar", "weight", "delay"]
    ⟨["nid_src", "nid_tar", "delay"], [[0, 1, 1]]⟩ [] (by decide)
    ⟨"weight", by decide, by decide⟩

-- ---------------------------------------------------------------------------
-- pid-run validation
-- ---------------------------------------------------------------------------

theorem nidSeqCheck_ok (lst : List PRow) (begin : Nat) :
    ∀ (n j : Nat), nidSeqCheck lst begin j n = .ok () ↔
      ∀ i : Nat, j ≤ i → i < j + n →
        (lst.getD (begin + i) default).nid = (i : Int) := by
  intro n
  induction n with
  | zero =>
    intro j
    constructor
    · intro _ i h1 h2
      omega
    · intro _
      rfl
  | succ n ih =>
    intro j
    simp only [nidSeqCheck]
    by_cases hj : (lst.getD (begin + j) default).nid = (j : Int)
    · rw [if_neg (not_not_intro hj), ih (j + 1)]
      constructor
      · intro hall i h1 h2
        rcases eq_or_lt_of_le h1 with heq | hlt
        · rw [← heq]
          exact hj
        · exact hall i (by omega) (by omega)
      · intro hall i h1 h2
        exact hall i (by omega) (by omega)
    · rw [if_pos hj]
      constructor
      · intro he
        exact absurd he (by simp)
      · intro hall
        exact absurd (hall j (le_refl j) (by omega)) hj

/-- C9 (amended): a nonempty pid run whose pid references a population —
under Python list-index semantics, a negative pid counting from the end of
the populations list — is accepted by `iterate_pid_blocks_callback`
exactly when it (a) has exactly that population's neuron count of rows
whose nid equals the row's offset within the run (consecutive 0, 1, …,
count−1, not merely strictly increasing from 0) or (b) is a single row
with `nid = ALL_NEURONS`; a pid referencing no population raises
`IndexError` at the lookup, before any run check; and the whole pipeline
accepts a concrete well-formed parameters list. -/
theorem c9_run_acceptance :
    (∀ (sizes : List Nat) (lst : List PRow) (pid : Int) (begin finish : Nat)
      (size : Nat), begin < finish →
      populationSize sizes pid = .ok size →
      (pidBlockCallback sizes lst pid begin finish = .ok () ↔
        ((finish - begin = size ∧
          ∀ j : Nat, j < finish - begin →
            (lst.getD (begin + j) default).nid = (j : Int)) ∨
         (finish - begin = 1 ∧
          (lst.getD begin default).nid = ALL_NEURONS)))) ∧
    (∀ (sizes : List Nat) (lst : List PRow) (pid : Int) (begin finish : Nat)
      (e : String), populationSize sizes pid = .error e →
      pidBlockCallback sizes lst pid begin finish = .error e) ∧
    iteratePidBlocks [2, 3] [⟨0, 0⟩, ⟨0, 1⟩, ⟨1, 2147483647⟩] = .ok () := by
  refine ⟨?_, ?_, by decide⟩
  · intro sizes lst pid begin finish size hbf hsz
    have hallne : (2147483647 : Int) ≠ (0 : Int) := by decide
    unfold pidBlockCallback
    rw [hsz]
    dsimp only
    by_cases hall : (lst.getD begin default).nid = ALL_NEURONS
    · by_cases hc1 : finish - begin = 1
      · rw [if_neg (fun hcon =>
          hcon.2.elim (fun hx => hx hc1) (fun hx => hx hall))]
        rw [if_pos hall, if_neg (not_not_intro hc1)]
        exact iff_of_true rfl (Or.inr ⟨hc1, hall⟩)
      · have hrhs : ¬ ((finish - begin = size ∧
            ∀ j : Nat, j < finish - begin →
              (lst.getD (begin + j) default).nid = (j : Int)) ∨
            (finish - begin = 1 ∧
              (lst.getD begin default).nid = ALL_NEURONS)) := by
          rintro (⟨hsize, hseq⟩ | ⟨h1, _⟩)
          · have h0 := hseq 0 (by omega)
            rw [Nat.add_zero] at h0
            rw [hall] at h0
            rw [ALL_NEURONS] at h0
            exact hallne (by exact_mod_cast h0)
          · exact hc1 h1
        by_cases hcs : finish - begin = size
        · rw [if_neg (fun hcon => hcon.1 hcs)]
          rw [if_pos hall, if_pos hc1]
          exact iff_of_false (by simp) hrhs
        · rw [if_pos ⟨hcs, Or.inl hc1⟩]
          exact iff_of_false (by simp) hrhs
    · by_cases hcs : finish - begin = size
      · rw [if_neg (fun hcon => hcon.1 hcs), if_neg hall]
        rw [nidSeqCheck_ok lst begin (finish - begin) 0]
        constructor
        · intro hseq
          left
          refine ⟨hcs, fun j hj => hseq j (by omega) (by omega)⟩
        · rintro (⟨_, hseq⟩ | ⟨_, hA⟩)
          · intro i _ hi
            exact hseq i (by omega)
          · exact absurd hA hall
      · rw [if_pos ⟨hcs, Or.inr hall⟩]
        apply iff_of_false (by simp)
        rintro (⟨h1, _⟩ | ⟨_, hA⟩)
        · exact hcs h1
        · exact hall hA
  · intro sizes lst pid begin finish e hsz
    unfold pidBlockCallback
    rw [hsz]

/-- C9 counterexample: the two-row run `[(pid 0, nid 0), (pid 0, nid 5)]`
against a population of size 2 satisfies the claim's acceptance clause (a)
— exactly the neuron count of rows, nids strictly increasing starting at 0
— yet the code rejects it, because `iterate_pid_blocks_callback` demands
`nid == j` for every row offset `j`, not merely strict growth. -/
theorem c9_counterexample :
    claimRunAccepted 2 ([⟨0, 0⟩, ⟨0, 5⟩] : List PRow) = true ∧
    iteratePidBlocks [2] ([⟨0, 0⟩, ⟨0, 5⟩] : List PRow) =
      .error "Neuron indices must start at zero and be sorted." :=
  ⟨by decide, by decide⟩

/-- C9 witness: the acceptance characterisation evaluated on the concrete
run `[(0,0), (0,1)]` against population 0 of size 2; on the single
`ALL_NEURONS` run with the negative pid `-1`, which references the last of
the two populations; and the `IndexError` raise for the out-of-range
pid 5. -/
theorem c9_witness :
    (pidBlockCallback [2] ([⟨0, 0⟩, ⟨0, 1⟩] : List PRow) 0 0 2 = .ok () ↔
      ((2 - 0 = 2 ∧
        ∀ j : Nat, j < 2 - 0 →
          (List.getD ([⟨0, 0⟩, ⟨0, 1⟩] : List PRow) (0 + j) default).nid =
            (j : Int)) ∨
       (2 - 0 = 1 ∧
        (List.getD ([⟨0, 0⟩, ⟨0, 1⟩] : List PRow) 0 default).nid =
          ALL_NEURONS))) ∧
    (pidBlockCallback [3, 2] ([⟨-1, 2147483647⟩] : List PRow) (-1) 0 1 =
        .ok () ↔
      ((1 - 0 = 2 ∧
        ∀ j : Nat, j < 1 - 0 →
          (List.getD ([⟨-1, 2147483647⟩] : List PRow) (0 + j) default).nid =
            (j : Int)) ∨
       (1 - 0 = 1 ∧
        (List.getD ([⟨-1, 2147483647⟩] : List PRow) 0 default).nid =
          ALL_NEURONS))) ∧
    pidBlockCallback [2] ([⟨5, 0⟩] : List PRow) 5 0 1 =
      .error "IndexError: list index out of range" :=
  ⟨c9_run_acceptance.1 [2] ([⟨0, 0⟩, ⟨0, 1⟩] : List PRow) 0 0 2 2
     (by decide) (by decide),
   c9_run_acceptance.1 [3, 2] ([⟨-1, 2147483647⟩] : List PRow) (-1) 0 1 2
     (by decide) (by decide),
   c9_run_acceptance.2.1 [2] ([⟨5, 0⟩] : List PRow) 5 0 1
     "IndexError: list index out of range" (by decide)⟩
